import Mathlib

/-!
Space Invaders match engine

A shallow embedding of the game engine of `game.go` and a verification of its
specification.

Modelling conventions.

* Go's `int` is the 64-bit two's complement integer.  A value is an `Int` of
  `[MinInt, MaxInt]`, and every `+`, `-`, `++`, `--` and unary `-` of the engine
  whose operands are not confined by a guard is followed by `wrap`, reduction
  modulo `2^64` into that range, as Go defines overflow.  `MoveLeft` and
  `MoveRight` step only under the guards `X > 1` and `X < Width-2`, where no
  value of the range overflows, and `NewGame` and `ActiveInvaderCount` compute
  with small constants; these are left unwrapped.
* The fixed-size array `[InvaderRows][InvaderCols]Invader` is a function
  `Fin InvaderRows → Fin InvaderCols → Invader`; an assignment to one element is
  a `Function.update`.
* A method with receiver `*Game` that mutates its receiver is a function
  `Game → Game`.
* The loops `for r := 0; r < InvaderRows; r++ { for c := 0; c < InvaderCols; c++ {…} }`
  are left folds over the rows and, inside, over the columns, in index order
  (`forCells`).  A loop whose body returns from the function as soon as a test
  succeeds is the corresponding search (`anyCell`).
* `rand.Intn(n)` returns some integer of `[0, n)`.  The engine takes the outcome
  as an extra argument `choice : Nat` and uses `choice % n`, which ranges over
  exactly `[0, n)` as `choice` ranges over `Nat`.
-/

namespace SpaceInvaders

/-! ## Constants -/

def Width : Int := 40
def Height : Int := 20
abbrev InvaderRows : Nat := 3
abbrev InvaderCols : Nat := 8
def PlayerLives : Int := 3
def BulletSpeed : Int := 1
/-- Ticks between invader moves. -/
def InvaderSteps : Int := 15

/-- The least value of a 64-bit `int`, `-2^63`. -/
def MinInt : Int := -9223372036854775808

/-- The greatest value of a 64-bit `int`, `2^63 - 1`. -/
def MaxInt : Int := 9223372036854775807

/-- The value an `int` operation stores when its mathematical result is `x`:
`x` reduced modulo `2^64` into `[MinInt, MaxInt]`. -/
def wrap (x : Int) : Int :=
  (x + 9223372036854775808) % 18446744073709551616 - 9223372036854775808

/-! ## Data model -/

structure Point where
  X : Int
  Y : Int
deriving DecidableEq

/-- Direction `Dir`: `-1` = up (player), `+1` = down (invader). -/
structure Bullet where
  Pos : Point
  Active : Bool
  Dir : Int
deriving DecidableEq

structure Invader where
  Pos : Point
  Active : Bool
deriving DecidableEq

inductive GameState where
  | StatePlaying
  | StateWon
  | StateLost
deriving DecidableEq

open GameState

structure Game where
  Player : Point
  PlayerBullet : Bullet
  Invaders : Fin InvaderRows → Fin InvaderCols → Invader
  InvaderBullet : Bullet
  Score : Int
  Lives : Int
  Tick : Int
  /-- Formation direction: `1` = right, `-1` = left. -/
  InvaderDir : Int
  State : GameState

/-! ## Loops over the grid -/

/-- The nested loop over all grid cells, rows outside and columns inside, both
in increasing index order, threading a state through the loop body. -/
def forCells {σ : Type} (body : Fin InvaderRows → Fin InvaderCols → σ → σ) (s : σ) : σ :=
  (List.finRange InvaderRows).foldl
    (fun s r => (List.finRange InvaderCols).foldl (fun s c => body r c s) s) s

/-- The nested loop over all grid cells that stops at the first cell passing the
test; the result says whether such a cell was found. -/
def anyCell (test : Fin InvaderRows → Fin InvaderCols → Bool) : Bool :=
  (List.finRange InvaderRows).any fun r => (List.finRange InvaderCols).any fun c => test r c

/-- The assignment `g.Invaders[r][c] = inv`. -/
def setInvader (g : Game) (r : Fin InvaderRows) (c : Fin InvaderCols) (inv : Invader) : Game :=
  { g with Invaders := Function.update g.Invaders r (Function.update (g.Invaders r) c inv) }

/-! ## Operations -/

def NewGame : Game :=
  let g : Game :=
    { Player := ⟨Width / 2, Height - 2⟩
      PlayerBullet := ⟨⟨0, 0⟩, false, 0⟩
      Invaders := fun _ _ => ⟨⟨0, 0⟩, false⟩
      InvaderBullet := ⟨⟨0, 0⟩, false, 0⟩
      Score := 0
      Lives := PlayerLives
      Tick := 0
      InvaderDir := 1
      State := StatePlaying }
  forCells (fun r c g => setInvader g r c ⟨⟨3 + (c.val : Int) * 4, 2 + (r.val : Int) * 2⟩, true⟩) g

/-- Moves the player left. -/
def MoveLeft (g : Game) : Game :=
  if g.Player.X > 1 then { g with Player := { g.Player with X := g.Player.X - 1 } } else g

/-- Moves the player right. -/
def MoveRight (g : Game) : Game :=
  if g.Player.X < Width - 2 then { g with Player := { g.Player with X := g.Player.X + 1 } } else g

/-- Fires a player bullet if none is active. -/
def Shoot (g : Game) : Game :=
  if !g.PlayerBullet.Active then
    { g with PlayerBullet := { Pos := ⟨g.Player.X, wrap (g.Player.Y - 1)⟩, Active := true, Dir := -1 } }
  else g

def movePlayerBullet (g : Game) : Game :=
  if !g.PlayerBullet.Active then g
  else
    let g1 : Game :=
      { g with PlayerBullet :=
          { g.PlayerBullet with
            Pos := { g.PlayerBullet.Pos with Y := wrap (g.PlayerBullet.Pos.Y + g.PlayerBullet.Dir) } } }
    if g1.PlayerBullet.Pos.Y < 1 then
      { g1 with PlayerBullet := { g1.PlayerBullet with Active := false } }
    else g1

def moveInvaderBullet (g : Game) : Game :=
  if !g.InvaderBullet.Active then g
  else
    let g1 : Game :=
      { g with InvaderBullet :=
          { g.InvaderBullet with
            Pos := { g.InvaderBullet.Pos with Y := wrap (g.InvaderBullet.Pos.Y + g.InvaderBullet.Dir) } } }
    if g1.InvaderBullet.Pos.Y ≥ Height - 1 then
      { g1 with InvaderBullet := { g1.InvaderBullet with Active := false } }
    else g1

/-- The first loop of `moveInvaders`: whether any active invader would go out of
bounds by one step in the formation direction. -/
def needDrop (g : Game) : Bool :=
  forCells (fun r c acc =>
    let inv := g.Invaders r c
    if !inv.Active then acc
    else
      let nx := wrap (inv.Pos.X + g.InvaderDir)
      if nx ≤ 0 ∨ nx ≥ Width - 1 then true else acc) false

def moveInvaders (g : Game) : Game :=
  if needDrop g then
    let g1 : Game := { g with InvaderDir := wrap (-g.InvaderDir) }
    forCells (fun r c g =>
      if (g.Invaders r c).Active then
        setInvader g r c
          { g.Invaders r c with
            Pos := { (g.Invaders r c).Pos with Y := wrap ((g.Invaders r c).Pos.Y + 1) } }
      else g) g1
  else
    forCells (fun r c g =>
      if (g.Invaders r c).Active then
        setInvader g r c
          { g.Invaders r c with
            Pos := { (g.Invaders r c).Pos with X := wrap ((g.Invaders r c).Pos.X + g.InvaderDir) } }
      else g) g

/-- The positions of the active invaders, collected in grid order. -/
def activePositions (g : Game) : List Point :=
  forCells (fun r c active =>
    if (g.Invaders r c).Active then active ++ [(g.Invaders r c).Pos] else active) []

def maybeInvaderShoot (g : Game) (choice : Nat) : Game :=
  if g.InvaderBullet.Active then g
  else
    let active := activePositions g
    if h : active.length = 0 then g
    else
      let shooter := active.get ⟨choice % active.length, Nat.mod_lt _ (Nat.pos_of_ne_zero h)⟩
      { g with InvaderBullet := { Pos := ⟨shooter.X, wrap (shooter.Y + 1)⟩, Active := true, Dir := 1 } }

def checkCollisions (g : Game) : Game :=
  -- Player bullet hits invader.
  let g1 : Game :=
    if g.PlayerBullet.Active then
      forCells (fun r c g =>
        if (g.Invaders r c).Active ∧ (g.Invaders r c).Pos = g.PlayerBullet.Pos then
          let g := setInvader g r c { g.Invaders r c with Active := false }
          let g : Game := { g with PlayerBullet := { g.PlayerBullet with Active := false } }
          { g with Score := wrap (g.Score + 10) }
        else g) g
    else g
  -- Invader bullet hits player.
  if g1.InvaderBullet.Active ∧ g1.InvaderBullet.Pos = g1.Player then
    { g1 with InvaderBullet := { g1.InvaderBullet with Active := false }, Lives := wrap (g1.Lives - 1) }
  else g1

def checkWinLoss (g : Game) : Game :=
  if g.Lives ≤ 0 then { g with State := StateLost }
  -- Check if any invader reached the player row.
  else if anyCell (fun r c => (g.Invaders r c).Active && decide ((g.Invaders r c).Pos.Y ≥ g.Player.Y)) then
    { g with State := StateLost }
  -- Check if all invaders destroyed.
  else if anyCell (fun r c => (g.Invaders r c).Active) then g
  else { g with State := StateWon }

/-- Returns the number of active invaders. -/
def ActiveInvaderCount (g : Game) : Int :=
  forCells (fun r c n => if (g.Invaders r c).Active then n + 1 else n) 0

/-- Advances the game by one tick. -/
def Update (g : Game) (choice : Nat) : Game :=
  if g.State ≠ StatePlaying then g
  else
    let g := { g with Tick := wrap (g.Tick + 1) }
    let g := movePlayerBullet g
    let g := moveInvaderBullet g
    let g := if Int.tmod g.Tick InvaderSteps = 0 then maybeInvaderShoot (moveInvaders g) choice else g
    let g := checkCollisions g
    checkWinLoss g

/-! ## Operation sequences -/

/-- The operations a driver can invoke on the engine; `update` carries the
outcome of the random shooter choice of that tick. -/
inductive Op where
  | moveLeft
  | moveRight
  | shoot
  | update (choice : Nat)

def step (g : Game) : Op → Game
  | Op.moveLeft => MoveLeft g
  | Op.moveRight => MoveRight g
  | Op.shoot => Shoot g
  | Op.update choice => Update g choice

/-- Runs a finite sequence of operations, first operation first. -/
def run (g : Game) (ops : List Op) : Game :=
  ops.foldl step g

/-! ## Concrete states used as instances -/

/-- A fresh game whose phase was set to Lost. -/
def lostGame : Game := { NewGame with State := StateLost }

/-- A fresh game whose phase was set to Won. -/
def wonGame : Game := { NewGame with State := StateWon }

/-- A fresh game, still in phase Playing, whose lives were set to zero. -/
def noLivesGame : Game := { NewGame with Lives := 0 }

/-- A fresh game with every invader forced to column `Width - 2`. -/
def edgeGame : Game :=
  { NewGame with Invaders := fun r c =>
                   { NewGame.Invaders r c with Pos := { (NewGame.Invaders r c).Pos with X := Width - 2 } } }

/-- The game `edgeGame` with every invader deactivated. -/
def emptyEdgeGame : Game :=
  { edgeGame with Invaders := fun r c => { edgeGame.Invaders r c with Active := false } }

/-- A fresh game with the invader of cell (0, 0) moved to the row of the player. -/
def breachedGame : Game :=
  setInvader NewGame 0 0
    { NewGame.Invaders 0 0 with Pos := { (NewGame.Invaders 0 0).Pos with Y := NewGame.Player.Y } }

/-- A fresh game with every invader deactivated. -/
def clearedGame : Game :=
  { NewGame with Invaders := fun r c => { NewGame.Invaders r c with Active := false } }

/-- A fresh game with the player's bullet placed on the invader of cell (0, 0). -/
def bulletOnInvaderGame : Game :=
  { NewGame with PlayerBullet := { Pos := (NewGame.Invaders 0 0).Pos, Active := true, Dir := -1 } }

/-- A fresh game with the invaders' bullet placed on the player. -/
def bulletOnPlayerGame : Game :=
  { NewGame with InvaderBullet := { Pos := NewGame.Player, Active := true, Dir := 1 } }

/-- The operations of a short play: one step left, a shot, and ten ticks, after
which the bullet is one row below the invader of cell (2, 4). -/
def aimedOps : List Op :=
  [Op.moveLeft, Op.shoot, Op.update 0, Op.update 1, Op.update 2, Op.update 3, Op.update 4,
    Op.update 5, Op.update 6, Op.update 7, Op.update 8, Op.update 9]

/-! ## Auxiliary definitions for the proofs -/

/-- All grid cells in the order the nested loops visit them. -/
def allCells : List (Fin InvaderRows × Fin InvaderCols) :=
  List.product (List.finRange InvaderRows) (List.finRange InvaderCols)

/-- One row down. -/
def dropInvader (inv : Invader) : Invader :=
  if inv.Active then { inv with Pos := { inv.Pos with Y := wrap (inv.Pos.Y + 1) } } else inv

/-- One column sideways by `d`. -/
def shiftInvader (d : Int) (inv : Invader) : Invader :=
  if inv.Active then { inv with Pos := { inv.Pos with X := wrap (inv.Pos.X + d) } } else inv

/-- Whether the invader of a cell is active and sits on the player's bullet. -/
def isHit (g : Game) (x : Fin InvaderRows × Fin InvaderCols) : Bool :=
  (g.Invaders x.1 x.2).Active && decide ((g.Invaders x.1 x.2).Pos = g.PlayerBullet.Pos)

/-- The effect of the hit test on one invader, for a bullet at `p`. -/
def hitInvader (p : Point) (inv : Invader) : Invader :=
  if inv.Active = true ∧ inv.Pos = p then { inv with Active := false } else inv

/-- The number of cells whose invader is hit. -/
def hitCount (g : Game) : Nat := allCells.countP (isHit g)

/-- The score after `n` hits counted one by one from score `s`: each hit stores
`wrap (score + 10)`. -/
def addHits (n : Nat) (s : Int) : Int := (fun x => wrap (x + 10))^[n] s

/-- The first loop of `checkCollisions`. -/
def hitLoop (g : Game) : Game :=
  forCells (fun r c g =>
    if (g.Invaders r c).Active ∧ (g.Invaders r c).Pos = g.PlayerBullet.Pos then
      let g := setInvader g r c { g.Invaders r c with Active := false }
      let g : Game := { g with PlayerBullet := { g.PlayerBullet with Active := false } }
      { g with Score := wrap (g.Score + 10) }
    else g) g

/-- The state of a playing tick just before collisions are resolved: tick
counted, both bullets moved and, on a formation tick, the formation moved and
the invaders given their chance to shoot. -/
def beforeCollisions (g : Game) (choice : Nat) : Game :=
  let g := { g with Tick := wrap (g.Tick + 1) }
  let g := movePlayerBullet g
  let g := moveInvaderBullet g
  if Int.tmod g.Tick InvaderSteps = 0 then maybeInvaderShoot (moveInvaders g) choice else g

/-- Active invaders sit on pairwise distinct positions. -/
def DistinctActive (g : Game) : Prop :=
  ∀ r c r' c', (g.Invaders r c).Active = true → (g.Invaders r' c').Active = true →
    (g.Invaders r c).Pos = (g.Invaders r' c').Pos → r = r' ∧ c = c'

/-- The active invaders stand in formation: each is at its initial position
translated by one common offset. -/
def Formation (g : Game) : Prop :=
  ∃ dx dy : Int, ∀ r c, (g.Invaders r c).Active = true →
    (g.Invaders r c).Pos = ⟨3 + (c.val : Int) * 4 + dx, 2 + (r.val : Int) * 2 + dy⟩

/-- The number of cells holding an active invader. -/
def activeCells (g : Game) : Nat :=
  allCells.countP (fun x => (g.Invaders x.1 x.2).Active)

/-- The invariant of the reachable states used below. -/
structure Reach (g : Game) : Prop where
  formation : Formation g
  playerX : 1 ≤ g.Player.X ∧ g.Player.X ≤ Width - 2
  playerY : g.Player.Y = Height - 2
  score : g.Score + 10 * ActiveInvaderCount g = 240
  won : g.State = StateWon → ∀ r c, (g.Invaders r c).Active = false

/-! ## A complete winning match, in parts -/

/-- A state as plain data: the grid is the list of its 24 invaders in loop
order (row 0 first, columns ascending). -/
structure Frame where
  Player : Point
  PlayerBullet : Bullet
  InvaderBullet : Bullet
  Score : Int
  Lives : Int
  Tick : Int
  InvaderDir : Int
  State : GameState
  Cells : List Invader
deriving DecidableEq

/-- The plain data of a state. -/
def toFrame (g : Game) : Frame :=
  { Player := g.Player
    PlayerBullet := g.PlayerBullet
    InvaderBullet := g.InvaderBullet
    Score := g.Score
    Lives := g.Lives
    Tick := g.Tick
    InvaderDir := g.InvaderDir
    State := g.State
    Cells := allCells.map fun x => g.Invaders x.1 x.2 }

/-- The state described by plain data. -/
def ofFrame (f : Frame) : Game :=
  { Player := f.Player
    PlayerBullet := f.PlayerBullet
    Invaders := fun r c => f.Cells.getD (r.val * InvaderCols + c.val) ⟨⟨0, 0⟩, false⟩
    InvaderBullet := f.InvaderBullet
    Score := f.Score
    Lives := f.Lives
    Tick := f.Tick
    InvaderDir := f.InvaderDir
    State := f.State }

/-- Part 1 of the winning match. -/
def winningOps1 : List Op :=
  List.replicate 1 (Op.moveLeft) ++ List.replicate 1 (Op.shoot) ++
    List.replicate 11 (Op.update 0) ++ List.replicate 3 (Op.moveLeft) ++
    List.replicate 1 (Op.shoot) ++ List.replicate 11 (Op.update 0) ++
    List.replicate 3 (Op.moveLeft) ++ List.replicate 1 (Op.shoot) ++
    List.replicate 11 (Op.update 0) ++ List.replicate 1 (Op.moveRight) ++
    List.replicate 1 (Op.shoot) ++ List.replicate 13 (Op.update 0) ++
    List.replicate 4 (Op.moveLeft) ++ List.replicate 1 (Op.shoot) ++
    List.replicate 11 (Op.update 0) ++ List.replicate 3 (Op.moveLeft) ++
    List.replicate 1 (Op.shoot) ++ List.replicate 11 (Op.update 0) ++
    List.replicate 1 (Op.moveRight) ++ List.replicate 1 (Op.shoot) ++
    List.replicate 9 (Op.update 0)

/-- The state of the winning match after part 1. -/
def winningFrame1 : Frame :=
  { Player := ⟨8, 18⟩
    PlayerBullet := ⟨⟨8, 8⟩, true, (-1)⟩
    InvaderBullet := ⟨⟨8, 5⟩, true, 1⟩
    Score := 60
    Lives := 3
    Tick := 77
    InvaderDir := 1
    State := StatePlaying
    Cells := [
      ⟨⟨8, 2⟩, true⟩, ⟨⟨12, 2⟩, true⟩, ⟨⟨16, 2⟩, true⟩, ⟨⟨20, 2⟩, true⟩, ⟨⟨24, 2⟩, true⟩,
        ⟨⟨28, 2⟩, true⟩, ⟨⟨32, 2⟩, true⟩, ⟨⟨36, 2⟩, true⟩, ⟨⟨8, 4⟩, true⟩, ⟨⟨12, 4⟩, true⟩,
        ⟨⟨14, 4⟩, false⟩, ⟨⟨20, 4⟩, true⟩, ⟨⟨24, 4⟩, true⟩, ⟨⟨28, 4⟩, true⟩, ⟨⟨32, 4⟩, true⟩,
        ⟨⟨36, 4⟩, true⟩, ⟨⟨7, 6⟩, false⟩, ⟨⟨10, 6⟩, false⟩, ⟨⟨13, 6⟩, false⟩, ⟨⟨16, 6⟩, false⟩,
        ⟨⟨19, 6⟩, false⟩, ⟨⟨28, 6⟩, true⟩, ⟨⟨32, 6⟩, true⟩, ⟨⟨36, 6⟩, true⟩] }

/-- Part 2 of the winning match. -/
def winningOps2 : List Op :=
  List.replicate 4 (Op.update 0) ++ List.replicate 1 (Op.moveRight) ++
    List.replicate 1 (Op.shoot) ++ List.replicate 15 (Op.update 0) ++
    List.replicate 5 (Op.moveRight) ++ List.replicate 1 (Op.shoot) ++
    List.replicate 13 (Op.update 0) ++ List.replicate 4 (Op.moveRight) ++
    List.replicate 1 (Op.shoot) ++ List.replicate 14 (Op.update 0) ++
    List.replicate 3 (Op.moveRight) ++ List.replicate 1 (Op.shoot) ++
    List.replicate 12 (Op.update 0) ++ List.replicate 1 (Op.shoot) ++
    List.replicate 14 (Op.update 0) ++ List.replicate 3 (Op.moveRight) ++
    List.replicate 1 (Op.shoot) ++ List.replicate 6 (Op.update 0)

/-- The state of the winning match after part 2. -/
def winningFrame2 : Frame :=
  { Player := ⟨24, 18⟩
    PlayerBullet := ⟨⟨24, 11⟩, true, (-1)⟩
    InvaderBullet := ⟨⟨12, 9⟩, true, 1⟩
    Score := 120
    Lives := 3
    Tick := 155
    InvaderDir := (-1)
    State := StatePlaying
    Cells := [
      ⟨⟨9, 2⟩, false⟩, ⟨⟨12, 3⟩, true⟩, ⟨⟨18, 3⟩, false⟩, ⟨⟨21, 3⟩, false⟩, ⟨⟨24, 3⟩, true⟩,
        ⟨⟨28, 3⟩, true⟩, ⟨⟨32, 3⟩, true⟩, ⟨⟨36, 3⟩, true⟩, ⟨⟨8, 4⟩, false⟩, ⟨⟨14, 4⟩, false⟩,
        ⟨⟨14, 4⟩, false⟩, ⟨⟨21, 5⟩, false⟩, ⟨⟨24, 5⟩, true⟩, ⟨⟨28, 5⟩, true⟩, ⟨⟨32, 5⟩, true⟩,
        ⟨⟨36, 5⟩, true⟩, ⟨⟨7, 6⟩, false⟩, ⟨⟨10, 6⟩, false⟩, ⟨⟨13, 6⟩, false⟩, ⟨⟨16, 6⟩, false⟩,
        ⟨⟨19, 6⟩, false⟩, ⟨⟨28, 7⟩, true⟩, ⟨⟨32, 7⟩, true⟩, ⟨⟨36, 7⟩, true⟩] }

/-- Part 3 of the winning match. -/
def winningOps3 : List Op :=
  List.replicate 6 (Op.update 0) ++ List.replicate 3 (Op.moveRight) ++
    List.replicate 1 (Op.shoot) ++ List.replicate 10 (Op.update 0) ++
    List.replicate 1 (Op.moveLeft) ++ List.replicate 1 (Op.shoot) ++
    List.replicate 12 (Op.update 0) ++ List.replicate 4 (Op.moveRight) ++
    List.replicate 1 (Op.shoot) ++ List.replicate 10 (Op.update 0) ++
    List.replicate 1 (Op.moveLeft) ++ List.replicate 1 (Op.shoot) ++
    List.replicate 12 (Op.update 0) ++ List.replicate 3 (Op.moveRight) ++
    List.replicate 1 (Op.shoot) ++ List.replicate 10 (Op.update 0) ++
    List.replicate 1 (Op.moveLeft) ++ List.replicate 1 (Op.shoot) ++
    List.replicate 12 (Op.update 0) ++ List.replicate 1 (Op.moveLeft) ++
    List.replicate 1 (Op.shoot) ++ List.replicate 7 (Op.update 0)

/-- The state of the winning match after part 3. -/
def winningFrame3 : Frame :=
  { Player := ⟨30, 18⟩
    PlayerBullet := ⟨⟨30, 10⟩, true, (-1)⟩
    InvaderBullet := ⟨⟨7, 13⟩, true, 1⟩
    Score := 190
    Lives := 3
    Tick := 234
    InvaderDir := (-1)
    State := StatePlaying
    Cells := [
      ⟨⟨9, 2⟩, false⟩, ⟨⟨7, 3⟩, true⟩, ⟨⟨18, 3⟩, false⟩, ⟨⟨21, 3⟩, false⟩, ⟨⟨19, 3⟩, true⟩,
        ⟨⟨23, 3⟩, true⟩, ⟨⟨27, 3⟩, true⟩, ⟨⟨31, 3⟩, true⟩, ⟨⟨8, 4⟩, false⟩, ⟨⟨14, 4⟩, false⟩,
        ⟨⟨14, 4⟩, false⟩, ⟨⟨21, 5⟩, false⟩, ⟨⟨24, 5⟩, false⟩, ⟨⟨26, 5⟩, false⟩, ⟨⟨29, 5⟩, false⟩,
        ⟨⟨31, 5⟩, false⟩, ⟨⟨7, 6⟩, false⟩, ⟨⟨10, 6⟩, false⟩, ⟨⟨13, 6⟩, false⟩, ⟨⟨16, 6⟩, false⟩,
        ⟨⟨19, 6⟩, false⟩, ⟨⟨27, 7⟩, false⟩, ⟨⟨30, 7⟩, false⟩, ⟨⟨32, 7⟩, false⟩] }

/-- Part 4 of the winning match. -/
def winningOps4 : List Op :=
  List.replicate 7 (Op.update 0) ++ List.replicate 5 (Op.moveLeft) ++
    List.replicate 1 (Op.shoot) ++ List.replicate 14 (Op.update 0) ++
    List.replicate 4 (Op.moveLeft) ++ List.replicate 1 (Op.shoot) ++
    List.replicate 14 (Op.update 0) ++ List.replicate 5 (Op.moveLeft) ++
    List.replicate 1 (Op.shoot) ++ List.replicate 14 (Op.update 0) ++
    List.replicate 13 (Op.moveLeft) ++ List.replicate 1 (Op.shoot) ++
    List.replicate 14 (Op.update 0)

/-- The operations of a complete match that destroys all 24 invaders: the
player steps under an invader, shoots, and lets the ticks pass until the bullet
lands; every random choice is 0. -/
def winningOps : List Op :=
  winningOps1 ++ winningOps2 ++ winningOps3 ++ winningOps4

/-! ## Further concrete states and auxiliary definitions -/

/-- A fresh game with the player put at column 100, outside the playfield. -/
def strayGame : Game := { NewGame with Player := { NewGame.Player with X := 100 } }

/-- A fresh game after one shot. -/
def shotGame : Game := Shoot NewGame

/-- A game at tick 14, one tick before a formation move, with the invader of
cell (0, 0) deactivated. -/
def tick14Game : Game :=
  setInvader { NewGame with Tick := 14 } 0 0 { NewGame.Invaders 0 0 with Active := false }

/-- A fresh game with the player's bullet in flight at row 2. -/
def nearTopGame : Game :=
  { NewGame with PlayerBullet := { Pos := ⟨20, 2⟩, Active := true, Dir := -1 } }

/-- A fresh game with the invaders' bullet in flight at row `Height - 2`. -/
def nearBottomGame : Game :=
  { NewGame with InvaderBullet := { Pos := ⟨10, Height - 2⟩, Active := true, Dir := 1 } }

/-- A fresh game with the invaders' bullet in flight at row `Height - 3`. -/
def abovePlayerRowGame : Game :=
  { NewGame with InvaderBullet := { Pos := ⟨10, Height - 3⟩, Active := true, Dir := 1 } }

/-- The operations of a match the player loses by being hit three times: the
random choice 20 makes the invader of cell (2, 4) shoot on every formation tick,
and the player stays under it. -/
def losingOps : List Op :=
  List.replicate 26 (Op.update 20) ++ [Op.moveRight] ++ List.replicate 15 (Op.update 20) ++
    [Op.moveRight] ++ List.replicate 15 (Op.update 20)

/-- The phase agrees with the win/loss rule, and the lives are in range. -/
structure PhaseOk (g : Game) : Prop where
  livesLe : g.Lives ≤ 3
  livesGe : 0 ≤ g.Lives
  playing : g.State = StatePlaying →
    1 ≤ g.Lives ∧ (∃ r c, (g.Invaders r c).Active = true) ∧
      ∀ r c, (g.Invaders r c).Active = true → (g.Invaders r c).Pos.Y < g.Player.Y
  won : g.State = StateWon → 1 ≤ g.Lives ∧ ∀ r c, (g.Invaders r c).Active = false
  lost : g.State = StateLost →
    g.Lives ≤ 0 ∨ ∃ r c, (g.Invaders r c).Active = true ∧ (g.Invaders r c).Pos.Y ≥ g.Player.Y

/-- No `int` operation of `moveInvaders` overflows on this state: the direction
can be negated, and for every active invader the column plus the direction and
the row plus one are within `[MinInt, MaxInt]`. -/
def MoveInRange (g : Game) : Prop :=
  (MinInt < g.InvaderDir ∧ g.InvaderDir ≤ MaxInt) ∧
  ∀ r c, (g.Invaders r c).Active = true →
    (MinInt ≤ (g.Invaders r c).Pos.X + g.InvaderDir ∧ (g.Invaders r c).Pos.X + g.InvaderDir ≤ MaxInt) ∧
    (MinInt ≤ (g.Invaders r c).Pos.Y ∧ (g.Invaders r c).Pos.Y < MaxInt)

/-- A fresh game with the invader of cell (0, 0) at column `Width - 2` and at
the greatest row an `int` can hold. -/
def highRowGame : Game :=
  setInvader NewGame 0 0 { Pos := ⟨Width - 2, MaxInt⟩, Active := true }

/-- The game `bulletOnInvaderGame` with a score seven below the greatest `int`. -/
def maxScoreGame : Game := { bulletOnInvaderGame with Score := MaxInt - 7 }

/-- The game `bulletOnPlayerGame` with the least `int` as number of lives. -/
def minLivesGame : Game := { bulletOnPlayerGame with Lives := MinInt }

/-- A fresh game with the player at the least row an `int` can hold. -/
def lowPlayerGame : Game := { NewGame with Player := { NewGame.Player with Y := MinInt } }

/-- A fresh game with the greatest `int` as tick counter. -/
def maxTickGame : Game := { NewGame with Tick := MaxInt }

/-- A fresh game with every invader at the greatest row an `int` can hold. -/
def topRowsGame : Game :=
  { NewGame with Invaders := fun r c =>
                   { NewGame.Invaders r c with Pos := { (NewGame.Invaders r c).Pos with Y := MaxInt } } }

/-- A fresh game with the player's bullet in flight at the least row an `int`
can hold. -/
def minRowBulletGame : Game :=
  { NewGame with PlayerBullet := { Pos := ⟨20, MinInt⟩, Active := true, Dir := -1 } }

/-- A fresh game with the invaders' bullet in flight at the greatest row an
`int` can hold. -/
def maxRowBulletGame : Game :=
  { NewGame with InvaderBullet := { Pos := ⟨10, MaxInt⟩, Active := true, Dir := 1 } }

/-- The invariant of the reachable states: the facts of `Reach` and `PhaseOk`
together with the bounds that keep the formation arithmetic away from
overflow. -/
structure Sound (g : Game) : Prop where
  reach : Reach g
  phase : PhaseOk g
  dir : g.InvaderDir = 1 ∨ g.InvaderDir = -1
  cols : ∀ r c, (g.Invaders r c).Active = true →
    1 ≤ (g.Invaders r c).Pos.X ∧ (g.Invaders r c).Pos.X ≤ Width - 2
  rows : ∀ r c, (g.Invaders r c).Active = true →
    0 ≤ (g.Invaders r c).Pos.Y ∧ (g.Invaders r c).Pos.Y ≤ Height - 2

/-! ## Wrap-around -/

theorem wrap_of_inRange (x : Int) (h1 : MinInt ≤ x) (h2 : x ≤ MaxInt) : wrap x = x := by
  unfold wrap
  unfold MinInt at h1
  unfold MaxInt at h2
  omega

theorem wrap_inRange (x : Int) : MinInt ≤ wrap x ∧ wrap x ≤ MaxInt := by
  unfold wrap MinInt MaxInt
  omega

theorem addHits_zero (s : Int) : addHits 0 s = s := rfl

theorem addHits_succ (n : Nat) (s : Int) : addHits (n + 1) s = wrap (addHits n s + 10) := by
  unfold addHits
  rw [Function.iterate_succ_apply']

theorem addHits_one (s : Int) : addHits 1 s = wrap (s + 10) := rfl

/-! ## Reasoning about the grid loops -/

theorem mem_allCells (x : Fin InvaderRows × Fin InvaderCols) : x ∈ allCells := by
  obtain ⟨r, c⟩ := x
  exact List.mem_product.2 ⟨List.mem_finRange r, List.mem_finRange c⟩

theorem nodup_allCells : allCells.Nodup :=
  List.Nodup.product (List.nodup_finRange _) (List.nodup_finRange _)

theorem foldl_nested {α β σ : Type} (body : α → β → σ → σ) (cols : List β) :
    ∀ (rows : List α) (s : σ),
      rows.foldl (fun s r => cols.foldl (fun s c => body r c s) s) s
        = (List.product rows cols).foldl (fun s x => body x.1 x.2 s) s := by
  intro rows
  induction rows with
  | nil => intro s; rfl
  | cons r rows ih =>
    intro s
    rw [show List.product (r :: rows) cols
        = List.map (fun b => (r, b)) cols ++ List.product rows cols from List.product_cons r rows cols]
    simp only [List.foldl_cons, List.foldl_append, List.foldl_map]
    exact ih _

theorem forCells_eq_foldl {σ : Type} (body : Fin InvaderRows → Fin InvaderCols → σ → σ) (s : σ) :
    forCells body s = allCells.foldl (fun s x => body x.1 x.2 s) s :=
  foldl_nested body _ _ s

/-- Invariant rule for a fold over a duplicate-free list: the invariant may
mention the list of elements already visited. -/
theorem foldl_visited {ι σ : Type} (body : ι → σ → σ) (P : List ι → σ → Prop)
    (hstep : ∀ done x s, x ∉ done → P done s → P (done ++ [x]) (body x s)) :
    ∀ (rest done : List ι) (s : σ), (done ++ rest).Nodup → P done s →
      P (done ++ rest) (rest.foldl (fun s x => body x s) s) := by
  intro rest
  induction rest with
  | nil => intro done s _ h; simpa using h
  | cons x rest ih =>
    intro done s hnd h
    have hx : x ∉ done := by
      intro hmem
      have := List.nodup_append.1 hnd
      exact this.2.2 hmem (List.mem_cons_self _ _)
    have key := ih (done ++ [x]) (body x s) (by simpa using hnd) (hstep done x s hx h)
    simpa using key

/-- Invariant rule for the grid loop, with the cells already visited. -/
theorem forCells_visited {σ : Type} (body : Fin InvaderRows → Fin InvaderCols → σ → σ)
    (P : List (Fin InvaderRows × Fin InvaderCols) → σ → Prop) (s : σ) (h0 : P [] s)
    (hstep : ∀ done r c s, (r, c) ∉ done → P done s → P (done ++ [(r, c)]) (body r c s)) :
    P allCells (forCells body s) := by
  rw [forCells_eq_foldl]
  have := foldl_visited (fun x s => body x.1 x.2 s) P
    (fun done x s hx h => hstep done x.1 x.2 s hx h) allCells [] s (by simpa using nodup_allCells) h0
  simpa using this

/-- Plain invariant rule for the grid loop. -/
theorem forCells_invariant {σ : Type} (body : Fin InvaderRows → Fin InvaderCols → σ → σ)
    (P : σ → Prop) (s : σ) (h0 : P s) (hstep : ∀ r c s, P s → P (body r c s)) :
    P (forCells body s) :=
  forCells_visited body (fun _ s => P s) s h0 (fun _ r c s _ h => hstep r c s h)

theorem anyCell_eq_true (test : Fin InvaderRows → Fin InvaderCols → Bool) :
    anyCell test = true ↔ ∃ r c, test r c = true := by
  simp [anyCell, List.any_eq_true, List.mem_finRange]

theorem anyCell_eq_false (test : Fin InvaderRows → Fin InvaderCols → Bool) :
    anyCell test = false ↔ ∀ r c, test r c = false := by
  rw [← Bool.not_eq_true, anyCell_eq_true]
  simp

@[simp] theorem setInvader_Invaders_same (g : Game) (r : Fin InvaderRows) (c : Fin InvaderCols)
    (inv : Invader) : (setInvader g r c inv).Invaders r c = inv := by
  simp [setInvader]

theorem setInvader_Invaders (g : Game) (r r' : Fin InvaderRows) (c c' : Fin InvaderCols)
    (inv : Invader) :
    (setInvader g r c inv).Invaders r' c' = if (r', c') = (r, c) then inv else g.Invaders r' c' := by
  unfold setInvader
  by_cases hr : r' = r
  · subst hr
    by_cases hc : c' = c
    · subst hc; simp
    · simp [Function.update_noteq hc, hc]
  · simp [Function.update_noteq hr, hr]

/-! ## The loops as pointwise maps -/

theorem setInvader_self (g : Game) (r : Fin InvaderRows) (c : Fin InvaderCols) :
    setInvader g r c (g.Invaders r c) = g := by
  simp [setInvader]

/-- A grid loop whose body rewrites the visited invader by `f`, and touches
nothing else, maps `f` over the grid. -/
theorem forCells_pointwise (body : Fin InvaderRows → Fin InvaderCols → Game → Game)
    (f : Invader → Invader) (g0 : Game)
    (hbody : ∀ (I : Fin InvaderRows → Fin InvaderCols → Invader) r c,
      body r c { g0 with Invaders := I } = setInvader { g0 with Invaders := I } r c (f (I r c))) :
    forCells body g0 = { g0 with Invaders := fun r c => f (g0.Invaders r c) } := by
  have key := forCells_visited body
    (fun done g => g = { g0 with
      Invaders := fun r c => if (r, c) ∈ done then f (g0.Invaders r c) else g0.Invaders r c })
    g0 (by simp)
    (by
      intro done r c g hx hg
      subst hg
      rw [hbody]
      simp only [setInvader, hx, if_false]
      congr 1
      funext r' c'
      by_cases hr : r' = r
      · subst hr
        by_cases hc : c' = c
        · subst hc; simp
        · have hne : (r', c') ≠ (r', c) := fun h => hc (Prod.mk.inj h).2
          simp [Function.update_noteq hc, hne]
      · have hne : (r', c') ≠ (r, c) := fun h => hr (Prod.mk.inj h).1
        simp [Function.update_noteq hr, hne])
  simpa [mem_allCells] using key

/-! ## Formation movement -/

theorem needDrop_iff (g : Game) :
    needDrop g = true ↔ ∃ r c, (g.Invaders r c).Active = true ∧
      (wrap ((g.Invaders r c).Pos.X + g.InvaderDir) ≤ 0
        ∨ wrap ((g.Invaders r c).Pos.X + g.InvaderDir) ≥ Width - 1) := by
  have key := forCells_visited
    (fun r c acc =>
      let inv := g.Invaders r c
      if !inv.Active then acc
      else
        let nx := wrap (inv.Pos.X + g.InvaderDir)
        if nx ≤ 0 ∨ nx ≥ Width - 1 then true else acc)
    (fun done acc => acc = true ↔ ∃ x ∈ done, (g.Invaders x.1 x.2).Active = true ∧
      (wrap ((g.Invaders x.1 x.2).Pos.X + g.InvaderDir) ≤ 0
        ∨ wrap ((g.Invaders x.1 x.2).Pos.X + g.InvaderDir) ≥ Width - 1))
    false (by simp)
    (by
      intro done r c acc _ hacc
      simp only [List.mem_append, List.mem_singleton, or_and_right, exists_or, exists_eq_left,
        ← hacc]
      by_cases ha : (g.Invaders r c).Active = true
      · by_cases hb : wrap ((g.Invaders r c).Pos.X + g.InvaderDir) ≤ 0
            ∨ wrap ((g.Invaders r c).Pos.X + g.InvaderDir) ≥ Width - 1
        · simp only [ha, Bool.not_true, Bool.false_eq_true, if_false, if_pos hb, true_and]
          tauto
        · simp only [ha, Bool.not_true, Bool.false_eq_true, if_false, if_neg hb, true_and]
          tauto
      · simp [ha])
  unfold needDrop
  refine Iff.trans key ?_
  constructor
  · rintro ⟨x, _, hx⟩; exact ⟨x.1, x.2, hx⟩
  · rintro ⟨r, c, hx⟩; exact ⟨(r, c), mem_allCells _, hx⟩

theorem moveInvaders_drop (g : Game) (h : needDrop g = true) :
    moveInvaders g =
      { g with InvaderDir := wrap (-g.InvaderDir), Invaders := fun r c => dropInvader (g.Invaders r c) } := by
  unfold moveInvaders
  rw [if_pos h]
  exact forCells_pointwise _ dropInvader { g with InvaderDir := wrap (-g.InvaderDir) } (by
    intro I r c
    by_cases ha : (I r c).Active = true
    · simp [ha, dropInvader]
    · simp only [ha, dropInvader, if_false]
      exact (setInvader_self { g with InvaderDir := wrap (-g.InvaderDir), Invaders := I } r c).symm)

theorem moveInvaders_shift (g : Game) (h : needDrop g = false) :
    moveInvaders g = { g with Invaders := fun r c => shiftInvader g.InvaderDir (g.Invaders r c) } := by
  unfold moveInvaders
  rw [if_neg (by simp [h])]
  exact forCells_pointwise _ (shiftInvader g.InvaderDir) g (by
    intro I r c
    by_cases ha : (I r c).Active = true
    · simp [ha, shiftInvader]
    · simp only [ha, shiftInvader, if_false]
      exact (setInvader_self { g with Invaders := I } r c).symm)

/-! ## Collision resolution -/

theorem visited_update (I : Fin InvaderRows → Fin InvaderCols → Invader) (f : Invader → Invader)
    (done : List (Fin InvaderRows × Fin InvaderCols)) (r : Fin InvaderRows) (c : Fin InvaderCols)
    (v : Invader) (hv : v = f (I r c)) :
    Function.update (fun r c => if (r, c) ∈ done then f (I r c) else I r c) r
        (Function.update (fun c' => if (r, c') ∈ done then f (I r c') else I r c') c v)
      = fun r' c' => if (r', c') ∈ done ++ [(r, c)] then f (I r' c') else I r' c' := by
  funext r' c'
  by_cases hr : r' = r
  · subst hr
    by_cases hc : c' = c
    · subst hc; simp [hv]
    · have hne : (r', c') ≠ (r', c) := fun h => hc (Prod.mk.inj h).2
      simp [Function.update_noteq hc, hne]
  · have hne : (r', c') ≠ (r, c) := fun h => hr (Prod.mk.inj h).1
    simp [Function.update_noteq hr, hne]

theorem visited_skip (I : Fin InvaderRows → Fin InvaderCols → Invader) (f : Invader → Invader)
    (done : List (Fin InvaderRows × Fin InvaderCols)) (r : Fin InvaderRows) (c : Fin InvaderCols)
    (hv : f (I r c) = I r c) :
    (fun r' c' => if (r', c') ∈ done ++ [(r, c)] then f (I r' c') else I r' c')
      = fun r' c' => if (r', c') ∈ done then f (I r' c') else I r' c' := by
  funext r' c'
  by_cases hx : (r', c') = (r, c)
  · obtain ⟨h1, h2⟩ := Prod.mk.inj hx
    subst h1; subst h2
    by_cases hd : (r', c') ∈ done <;> simp [hd, hv]
  · simp [hx]

theorem checkCollisions_eq (g : Game) :
    checkCollisions g =
      (let g1 := if g.PlayerBullet.Active then hitLoop g else g
       if g1.InvaderBullet.Active ∧ g1.InvaderBullet.Pos = g1.Player then
         { g1 with InvaderBullet := { g1.InvaderBullet with Active := false }, Lives := wrap (g1.Lives - 1) }
       else g1) := rfl

theorem hitLoop_eq (g0 : Game) :
    hitLoop g0 =
      { g0 with
        Invaders := fun r c => hitInvader g0.PlayerBullet.Pos (g0.Invaders r c)
        PlayerBullet :=
          { g0.PlayerBullet with Active := g0.PlayerBullet.Active && !(allCells.any (isHit g0)) }
        Score := addHits (hitCount g0) g0.Score } := by
  have key := forCells_visited
    (fun r c g =>
      if (g.Invaders r c).Active ∧ (g.Invaders r c).Pos = g.PlayerBullet.Pos then
        let g := setInvader g r c { g.Invaders r c with Active := false }
        let g : Game := { g with PlayerBullet := { g.PlayerBullet with Active := false } }
        { g with Score := wrap (g.Score + 10) }
      else g)
    (fun done g => g =
      { g0 with
        Invaders := fun r c =>
          if (r, c) ∈ done then hitInvader g0.PlayerBullet.Pos (g0.Invaders r c) else g0.Invaders r c
        PlayerBullet :=
          { g0.PlayerBullet with Active := g0.PlayerBullet.Active && !(done.any (isHit g0)) }
        Score := addHits (done.countP (isHit g0)) g0.Score })
    g0 (by simp [addHits_zero])
    (by
      intro done r c g hx hg
      subst hg
      by_cases hh : (g0.Invaders r c).Active = true ∧ (g0.Invaders r c).Pos = g0.PlayerBullet.Pos
      · have hhit : isHit g0 (r, c) = true := by simp [isHit, hh.1, hh.2]
        simp only [hx, if_false, hh, and_self, if_true, setInvader, List.any_append,
          List.countP_append, List.countP_singleton, hhit, List.any_cons, List.any_nil,
          Bool.or_false, Bool.or_true, Bool.not_true, Bool.and_false]
        rw [visited_update g0.Invaders (hitInvader g0.PlayerBullet.Pos) done r c _
          (by simp [hitInvader, hh.1, hh.2])]
        rw [addHits_succ]
      · have hhit : isHit g0 (r, c) = false := by
          simp only [isHit, Bool.and_eq_false_imp, decide_eq_false_iff_not]
          exact fun h1 h2 => hh ⟨h1, h2⟩
        simp only [hx, if_false, hh, List.any_append,
          List.countP_append, List.countP_singleton, hhit, List.any_cons, List.any_nil,
          Bool.or_false]
        rw [visited_skip g0.Invaders (hitInvader g0.PlayerBullet.Pos) done r c
          (by simp only [hitInvader, if_neg hh])]
        simp)
  unfold hitLoop hitCount
  simpa [mem_allCells] using key

/-! ## Frame lemmas: the fields an operation leaves alone -/

@[simp] theorem MoveLeft_frame (g : Game) :
    (MoveLeft g).PlayerBullet = g.PlayerBullet ∧
    (MoveLeft g).Invaders = g.Invaders ∧
    (MoveLeft g).InvaderBullet = g.InvaderBullet ∧
    (MoveLeft g).Score = g.Score ∧
    (MoveLeft g).Lives = g.Lives ∧
    (MoveLeft g).Tick = g.Tick ∧
    (MoveLeft g).InvaderDir = g.InvaderDir ∧
    (MoveLeft g).State = g.State := by
  unfold MoveLeft; split_ifs <;> simp

@[simp] theorem MoveRight_frame (g : Game) :
    (MoveRight g).PlayerBullet = g.PlayerBullet ∧
    (MoveRight g).Invaders = g.Invaders ∧
    (MoveRight g).InvaderBullet = g.InvaderBullet ∧
    (MoveRight g).Score = g.Score ∧
    (MoveRight g).Lives = g.Lives ∧
    (MoveRight g).Tick = g.Tick ∧
    (MoveRight g).InvaderDir = g.InvaderDir ∧
    (MoveRight g).State = g.State := by
  unfold MoveRight; split_ifs <;> simp

@[simp] theorem Shoot_frame (g : Game) :
    (Shoot g).Player = g.Player ∧
    (Shoot g).Invaders = g.Invaders ∧
    (Shoot g).InvaderBullet = g.InvaderBullet ∧
    (Shoot g).Score = g.Score ∧
    (Shoot g).Lives = g.Lives ∧
    (Shoot g).Tick = g.Tick ∧
    (Shoot g).InvaderDir = g.InvaderDir ∧
    (Shoot g).State = g.State := by
  unfold Shoot; split_ifs <;> simp

@[simp] theorem movePlayerBullet_frame (g : Game) :
    (movePlayerBullet g).Player = g.Player ∧
    (movePlayerBullet g).Invaders = g.Invaders ∧
    (movePlayerBullet g).InvaderBullet = g.InvaderBullet ∧
    (movePlayerBullet g).Score = g.Score ∧
    (movePlayerBullet g).Lives = g.Lives ∧
    (movePlayerBullet g).Tick = g.Tick ∧
    (movePlayerBullet g).InvaderDir = g.InvaderDir ∧
    (movePlayerBullet g).State = g.State := by
  unfold movePlayerBullet; dsimp only; split_ifs <;> simp

@[simp] theorem moveInvaderBullet_frame (g : Game) :
    (moveInvaderBullet g).Player = g.Player ∧
    (moveInvaderBullet g).PlayerBullet = g.PlayerBullet ∧
    (moveInvaderBullet g).Invaders = g.Invaders ∧
    (moveInvaderBullet g).Score = g.Score ∧
    (moveInvaderBullet g).Lives = g.Lives ∧
    (moveInvaderBullet g).Tick = g.Tick ∧
    (moveInvaderBullet g).InvaderDir = g.InvaderDir ∧
    (moveInvaderBullet g).State = g.State := by
  unfold moveInvaderBullet; dsimp only; split_ifs <;> simp

@[simp] theorem maybeInvaderShoot_frame (g : Game) (choice : Nat) :
    (maybeInvaderShoot g choice).Player = g.Player ∧
    (maybeInvaderShoot g choice).PlayerBullet = g.PlayerBullet ∧
    (maybeInvaderShoot g choice).Invaders = g.Invaders ∧
    (maybeInvaderShoot g choice).Score = g.Score ∧
    (maybeInvaderShoot g choice).Lives = g.Lives ∧
    (maybeInvaderShoot g choice).Tick = g.Tick ∧
    (maybeInvaderShoot g choice).InvaderDir = g.InvaderDir ∧
    (maybeInvaderShoot g choice).State = g.State := by
  unfold maybeInvaderShoot; dsimp only; split_ifs <;> simp

@[simp] theorem moveInvaders_frame (g : Game) :
    (moveInvaders g).Player = g.Player ∧
    (moveInvaders g).PlayerBullet = g.PlayerBullet ∧
    (moveInvaders g).InvaderBullet = g.InvaderBullet ∧
    (moveInvaders g).Score = g.Score ∧
    (moveInvaders g).Lives = g.Lives ∧
    (moveInvaders g).Tick = g.Tick ∧
    (moveInvaders g).State = g.State := by
  cases h : needDrop g
  · rw [moveInvaders_shift g h]; simp
  · rw [moveInvaders_drop g h]; simp

@[simp] theorem hitLoop_frame (g : Game) :
    (hitLoop g).Player = g.Player ∧
    (hitLoop g).InvaderBullet = g.InvaderBullet ∧
    (hitLoop g).Lives = g.Lives ∧
    (hitLoop g).Tick = g.Tick ∧
    (hitLoop g).InvaderDir = g.InvaderDir ∧
    (hitLoop g).State = g.State := by
  rw [hitLoop_eq]; simp

@[simp] theorem checkCollisions_frame (g : Game) :
    (checkCollisions g).Player = g.Player ∧
    (checkCollisions g).Tick = g.Tick ∧
    (checkCollisions g).InvaderDir = g.InvaderDir ∧
    (checkCollisions g).State = g.State := by
  rw [checkCollisions_eq]; dsimp only; split_ifs <;> simp

@[simp] theorem checkWinLoss_Player (g : Game) :
    (checkWinLoss g).Player = g.Player := by
  unfold checkWinLoss; split_ifs <;> rfl

@[simp] theorem checkWinLoss_PlayerBullet (g : Game) :
    (checkWinLoss g).PlayerBullet = g.PlayerBullet := by
  unfold checkWinLoss; split_ifs <;> rfl

@[simp] theorem checkWinLoss_Invaders (g : Game) :
    (checkWinLoss g).Invaders = g.Invaders := by
  unfold checkWinLoss; split_ifs <;> rfl

@[simp] theorem checkWinLoss_InvaderBullet (g : Game) :
    (checkWinLoss g).InvaderBullet = g.InvaderBullet := by
  unfold checkWinLoss; split_ifs <;> rfl

@[simp] theorem checkWinLoss_Score (g : Game) :
    (checkWinLoss g).Score = g.Score := by
  unfold checkWinLoss; split_ifs <;> rfl

@[simp] theorem checkWinLoss_Lives (g : Game) :
    (checkWinLoss g).Lives = g.Lives := by
  unfold checkWinLoss; split_ifs <;> rfl

@[simp] theorem checkWinLoss_Tick (g : Game) :
    (checkWinLoss g).Tick = g.Tick := by
  unfold checkWinLoss; split_ifs <;> rfl

@[simp] theorem checkWinLoss_InvaderDir (g : Game) :
    (checkWinLoss g).InvaderDir = g.InvaderDir := by
  unfold checkWinLoss; split_ifs <;> rfl

theorem Update_playing (g : Game) (choice : Nat) (h : g.State = StatePlaying) :
    Update g choice = checkWinLoss (checkCollisions (beforeCollisions g choice)) := by
  simp [Update, h, beforeCollisions]

theorem Update_of_not_playing (g : Game) (choice : Nat) (h : g.State ≠ StatePlaying) :
    Update g choice = g := by
  simp [Update, h]

@[simp] theorem beforeCollisions_State (g : Game) (choice : Nat) :
    (beforeCollisions g choice).State = g.State := by
  unfold beforeCollisions; dsimp only; split_ifs <;> simp

@[simp] theorem beforeCollisions_Player (g : Game) (choice : Nat) :
    (beforeCollisions g choice).Player = g.Player := by
  unfold beforeCollisions; dsimp only; split_ifs <;> simp

@[simp] theorem beforeCollisions_Score (g : Game) (choice : Nat) :
    (beforeCollisions g choice).Score = g.Score := by
  unfold beforeCollisions; dsimp only; split_ifs <;> simp

@[simp] theorem beforeCollisions_Lives (g : Game) (choice : Nat) :
    (beforeCollisions g choice).Lives = g.Lives := by
  unfold beforeCollisions; dsimp only; split_ifs <;> simp

theorem checkWinLoss_eq (g : Game) : checkWinLoss g = { g with State := (checkWinLoss g).State } := by
  unfold checkWinLoss
  split_ifs <;> rfl

theorem checkWinLoss_State (g : Game) :
    (checkWinLoss g).State = g.State ∨ (checkWinLoss g).State = StateWon
      ∨ (checkWinLoss g).State = StateLost := by
  unfold checkWinLoss
  split_ifs <;> simp

theorem step_State (g : Game) (op : Op) :
    (step g op).State = g.State ∨
      (g.State = StatePlaying ∧ ((step g op).State = StateWon ∨ (step g op).State = StateLost)) := by
  cases op with
  | moveLeft => left; simp [step]
  | moveRight => left; simp [step]
  | shoot => left; simp [step]
  | update choice =>
    by_cases h : g.State = StatePlaying
    · simp only [step, Update_playing g choice h]
      rcases checkWinLoss_State (checkCollisions (beforeCollisions g choice)) with h1 | h1 | h1
      · left; simpa using h1
      · right; exact ⟨h, Or.inl h1⟩
      · right; exact ⟨h, Or.inr h1⟩
    · left; simp [step, Update_of_not_playing g choice h]

theorem run_nil (g : Game) : run g [] = g := rfl

theorem run_cons (g : Game) (op : Op) (ops : List Op) : run g (op :: ops) = run (step g op) ops := rfl

theorem run_append (g : Game) (ops ops' : List Op) : run g (ops ++ ops') = run (run g ops) ops' := by
  simp [run, List.foldl_append]

/-! ## The specification: phases -/

/-- C1: for every game state whose phase is Won or Lost, `Update` returns the
state completely unchanged, whatever the random choice: the whole record (tick,
score, lives, phase, player, both projectiles, formation direction and every
enemy) equals the one before the call. -/
theorem Update_frozen_after_end (g : Game) (choice : Nat)
    (h : g.State = StateWon ∨ g.State = StateLost) : Update g choice = g := by
  apply Update_of_not_playing
  rcases h with h | h <;> simp [h]

theorem Update_frozen_after_end_witness :
    (lostGame.State = StateWon ∨ lostGame.State = StateLost) ∧ Update lostGame 7 = lostGame :=
  ⟨Or.inr rfl, Update_frozen_after_end lostGame 7 (Or.inr rfl)⟩

/-- C2: the phase is terminal once Won or Lost.  From a state whose phase is Won
or Lost, every finite sequence of `MoveLeft`, `MoveRight`, `Shoot` and `Update`
(with any random choices) ends in the same phase; and a single operation that
changes the phase at all starts in Playing and ends in Won or in Lost. -/
theorem phase_terminal (g : Game) :
    ((g.State = StateWon ∨ g.State = StateLost) → ∀ ops : List Op, (run g ops).State = g.State) ∧
    (∀ op : Op, (step g op).State ≠ g.State →
      g.State = StatePlaying ∧ ((step g op).State = StateWon ∨ (step g op).State = StateLost)) := by
  constructor
  · intro h ops
    induction ops generalizing g with
    | nil => rfl
    | cons op ops ih =>
      rw [run_cons]
      have hs : (step g op).State = g.State := by
        rcases step_State g op with h1 | ⟨h1, _⟩
        · exact h1
        · rcases h with h | h <;> simp [h] at h1
      rw [ih (step g op) (by rw [hs]; exact h), hs]
  · intro op hne
    rcases step_State g op with h1 | h1
    · exact absurd h1 hne
    · exact h1

set_option maxRecDepth 100000 in
theorem phase_terminal_witness :
    (run wonGame [Op.shoot, Op.update 3, Op.moveLeft, Op.update 0, Op.moveRight]).State = wonGame.State ∧
    (noLivesGame.State = StatePlaying ∧
      ((step noLivesGame (Op.update 0)).State = StateWon
        ∨ (step noLivesGame (Op.update 0)).State = StateLost)) :=
  ⟨(phase_terminal wonGame).1 (Or.inl rfl) _,
   (phase_terminal noLivesGame).2 (Op.update 0) (by decide)⟩

/-- C3: win/loss evaluation follows strict precedence.  For a state in phase
Playing, after `checkWinLoss` the phase is Lost if `Lives <= 0`; otherwise Lost
if some active enemy has a row at or beyond the row of the player; otherwise Won
if no enemy is active; otherwise Playing.  No field other than the phase
changes. -/
theorem checkWinLoss_precedence (g : Game) (h : g.State = StatePlaying) :
    (g.Lives ≤ 0 → (checkWinLoss g).State = StateLost) ∧
    (0 < g.Lives → (∃ r c, (g.Invaders r c).Active = true ∧ (g.Invaders r c).Pos.Y ≥ g.Player.Y) →
      (checkWinLoss g).State = StateLost) ∧
    (0 < g.Lives → (¬ ∃ r c, (g.Invaders r c).Active = true ∧ (g.Invaders r c).Pos.Y ≥ g.Player.Y) →
      (∀ r c, (g.Invaders r c).Active = false) → (checkWinLoss g).State = StateWon) ∧
    (0 < g.Lives → (¬ ∃ r c, (g.Invaders r c).Active = true ∧ (g.Invaders r c).Pos.Y ≥ g.Player.Y) →
      (∃ r c, (g.Invaders r c).Active = true) → (checkWinLoss g).State = StatePlaying) ∧
    checkWinLoss g = { g with State := (checkWinLoss g).State } := by
  refine ⟨?_, ?_, ?_, ?_, checkWinLoss_eq g⟩
  · intro hl
    simp [checkWinLoss, hl]
  · intro hl hreach
    have h2 : anyCell (fun r c =>
        (g.Invaders r c).Active && decide ((g.Invaders r c).Pos.Y ≥ g.Player.Y)) = true := by
      rw [anyCell_eq_true]
      obtain ⟨r, c, ha, hy⟩ := hreach
      exact ⟨r, c, by simp [ha, hy]⟩
    simp [checkWinLoss, not_le.2 hl, h2]
  · intro hl hreach hnone
    have h2 : anyCell (fun r c =>
        (g.Invaders r c).Active && decide ((g.Invaders r c).Pos.Y ≥ g.Player.Y)) = false := by
      rw [anyCell_eq_false]
      intro r c
      simp [hnone r c]
    have h3 : anyCell (fun r c => (g.Invaders r c).Active) = false := by
      rw [anyCell_eq_false]
      exact hnone
    simp [checkWinLoss, not_le.2 hl, h2, h3]
  · intro hl hreach hsome
    have h2 : anyCell (fun r c =>
        (g.Invaders r c).Active && decide ((g.Invaders r c).Pos.Y ≥ g.Player.Y)) = false := by
      rw [anyCell_eq_false]
      intro r c
      by_cases ha : (g.Invaders r c).Active = true
      · have : ¬ (g.Invaders r c).Pos.Y ≥ g.Player.Y := fun hy => hreach ⟨r, c, ha, hy⟩
        simp [this]
      · simp [ha]
    have h3 : anyCell (fun r c => (g.Invaders r c).Active) = true := by
      rw [anyCell_eq_true]
      exact hsome
    simp [checkWinLoss, not_le.2 hl, h2, h3, h]

set_option maxRecDepth 100000 in
theorem checkWinLoss_precedence_witness :
    (checkWinLoss noLivesGame).State = StateLost ∧
    (checkWinLoss breachedGame).State = StateLost ∧
    (checkWinLoss clearedGame).State = StateWon ∧
    (checkWinLoss NewGame).State = StatePlaying :=
  ⟨(checkWinLoss_precedence noLivesGame (by decide)).1 (by decide),
   (checkWinLoss_precedence breachedGame (by decide)).2.1 (by decide) ⟨0, 0, by decide⟩,
   (checkWinLoss_precedence clearedGame (by decide)).2.2.1 (by decide) (by decide) (by decide),
   (checkWinLoss_precedence NewGame (by decide)).2.2.2.1 (by decide) (by decide) ⟨0, 0, by decide⟩⟩

/-! ## The specification: formation movement -/

theorem needDrop_iff_exact (g : Game) (h : MoveInRange g) :
    needDrop g = true ↔ ∃ r c, (g.Invaders r c).Active = true ∧
      ((g.Invaders r c).Pos.X + g.InvaderDir ≤ 0 ∨ (g.Invaders r c).Pos.X + g.InvaderDir ≥ Width - 1) := by
  rw [needDrop_iff]
  constructor
  · rintro ⟨r, c, ha, hx⟩
    rw [wrap_of_inRange _ (h.2 r c ha).1.1 (h.2 r c ha).1.2] at hx
    exact ⟨r, c, ha, hx⟩
  · rintro ⟨r, c, ha, hx⟩
    refine ⟨r, c, ha, ?_⟩
    rw [wrap_of_inRange _ (h.2 r c ha).1.1 (h.2 r c ha).1.2]
    exact hx

theorem moveInvaders_drop_exact (g : Game) (h : MoveInRange g) (hd : needDrop g = true) :
    (moveInvaders g).InvaderDir = -g.InvaderDir ∧
    ∀ r c, (g.Invaders r c).Active = true →
      (moveInvaders g).Invaders r c =
        { Pos := ⟨(g.Invaders r c).Pos.X, (g.Invaders r c).Pos.Y + 1⟩, Active := true } := by
  rw [moveInvaders_drop g hd]
  constructor
  · show wrap (-g.InvaderDir) = -g.InvaderDir
    have h1 := h.1
    apply wrap_of_inRange <;> simp only [MinInt, MaxInt] at * <;> omega
  · intro r c ha
    have h2 := (h.2 r c ha).2
    show dropInvader (g.Invaders r c) = _
    simp only [dropInvader, ha, if_true]
    rw [wrap_of_inRange _ (by omega) (by omega)]

theorem moveInvaders_shift_exact (g : Game) (h : MoveInRange g) (hd : needDrop g = false) :
    (moveInvaders g).InvaderDir = g.InvaderDir ∧
    ∀ r c, (g.Invaders r c).Active = true →
      (moveInvaders g).Invaders r c =
        { Pos := ⟨(g.Invaders r c).Pos.X + g.InvaderDir, (g.Invaders r c).Pos.Y⟩, Active := true } := by
  rw [moveInvaders_shift g hd]
  refine ⟨rfl, fun r c ha => ?_⟩
  show shiftInvader g.InvaderDir (g.Invaders r c) = _
  simp only [shiftInvader, ha, if_true]
  rw [wrap_of_inRange _ (h.2 r c ha).1.1 (h.2 r c ha).1.2]

set_option maxRecDepth 100000 in
/-- C4 (as stated): two states on which the claim fails.  With every enemy at
column `W-2` and direction `+1` but no enemy active, the scan finds nothing to
turn the formation and the direction stays `+1`.  With an active enemy at
column `W-2` and row `MaxInt`, the drop stores the row `MinInt`, not the row
plus 1. -/
theorem moveInvaders_edge_counterexample :
    ((∀ r c, (emptyEdgeGame.Invaders r c).Pos.X = Width - 2) ∧ emptyEdgeGame.InvaderDir = 1 ∧
      (moveInvaders emptyEdgeGame).InvaderDir ≠ -1) ∧
    ((highRowGame.Invaders 0 0).Active = true ∧
      (highRowGame.Invaders 0 0).Pos.X + highRowGame.InvaderDir ≥ Width - 1 ∧
      (highRowGame.Invaders 0 0).Pos.Y = MaxInt ∧
      ((moveInvaders highRowGame).Invaders 0 0).Pos.Y = MinInt ∧
      ((moveInvaders highRowGame).Invaders 0 0).Pos.Y ≠ (highRowGame.Invaders 0 0).Pos.Y + 1) := by
  decide

/-- C4 (amended): formation movement is all-or-nothing.  Take a state with
formation direction `d` on which no operation of the movement overflows the
64-bit `int`: `d` is not `MinInt`, and for every active enemy `x+d` and `y+1`
are within `[MinInt, MaxInt]` (`MoveInRange`).  If some active enemy has
`x+d <= 0` or `x+d >= W-1`, the direction becomes `-d` and every active enemy
stays active, moves one row down and keeps its column; otherwise the direction
stays `d` and every active enemy stays active, moves by `d` columns and keeps its
row.  In particular, with every enemy at column `W-2`, at least one enemy active
and `d = +1`, the direction becomes `-1` and every active enemy drops one row
with its column unchanged.  On every state, in range or not, inactive enemies
and all fields other than the enemies and the direction are unchanged. -/
theorem moveInvaders_all_or_nothing (g : Game) :
    (MoveInRange g →
      (∃ r c, (g.Invaders r c).Active = true ∧
        ((g.Invaders r c).Pos.X + g.InvaderDir ≤ 0 ∨ (g.Invaders r c).Pos.X + g.InvaderDir ≥ Width - 1)) →
      (moveInvaders g).InvaderDir = -g.InvaderDir ∧
      ∀ r c, (g.Invaders r c).Active = true →
        ((moveInvaders g).Invaders r c).Active = true ∧
        ((moveInvaders g).Invaders r c).Pos.Y = (g.Invaders r c).Pos.Y + 1 ∧
        ((moveInvaders g).Invaders r c).Pos.X = (g.Invaders r c).Pos.X) ∧
    (MoveInRange g →
      (¬ ∃ r c, (g.Invaders r c).Active = true ∧
        ((g.Invaders r c).Pos.X + g.InvaderDir ≤ 0 ∨ (g.Invaders r c).Pos.X + g.InvaderDir ≥ Width - 1)) →
      (moveInvaders g).InvaderDir = g.InvaderDir ∧
      ∀ r c, (g.Invaders r c).Active = true →
        ((moveInvaders g).Invaders r c).Active = true ∧
        ((moveInvaders g).Invaders r c).Pos.X = (g.Invaders r c).Pos.X + g.InvaderDir ∧
        ((moveInvaders g).Invaders r c).Pos.Y = (g.Invaders r c).Pos.Y) ∧
    (∀ r c, (g.Invaders r c).Active = false → (moveInvaders g).Invaders r c = g.Invaders r c) ∧
    moveInvaders g =
      { g with Invaders := (moveInvaders g).Invaders, InvaderDir := (moveInvaders g).InvaderDir } ∧
    (MoveInRange g →
      (∀ r c, (g.Invaders r c).Pos.X = Width - 2) → g.InvaderDir = 1 →
      (∃ r c, (g.Invaders r c).Active = true) →
      (moveInvaders g).InvaderDir = -1 ∧
      ∀ r c, (g.Invaders r c).Active = true →
        ((moveInvaders g).Invaders r c).Pos.Y = (g.Invaders r c).Pos.Y + 1 ∧
        ((moveInvaders g).Invaders r c).Pos.X = (g.Invaders r c).Pos.X) := by
  have hdrop : MoveInRange g → needDrop g = true →
      (moveInvaders g).InvaderDir = -g.InvaderDir ∧
      ∀ r c, (g.Invaders r c).Active = true →
        ((moveInvaders g).Invaders r c).Active = true ∧
        ((moveInvaders g).Invaders r c).Pos.Y = (g.Invaders r c).Pos.Y + 1 ∧
        ((moveInvaders g).Invaders r c).Pos.X = (g.Invaders r c).Pos.X := by
    intro hin hd
    obtain ⟨h1, h2⟩ := moveInvaders_drop_exact g hin hd
    refine ⟨h1, fun r c ha => ?_⟩
    rw [h2 r c ha]
    exact ⟨rfl, rfl, rfl⟩
  refine ⟨fun hin hex => hdrop hin ((needDrop_iff_exact g hin).2 hex), ?_, ?_, ?_, ?_⟩
  · intro hin hno
    have hd : needDrop g = false := by
      rw [← Bool.not_eq_true, needDrop_iff_exact g hin]
      exact hno
    obtain ⟨h1, h2⟩ := moveInvaders_shift_exact g hin hd
    refine ⟨h1, fun r c ha => ?_⟩
    rw [h2 r c ha]
    exact ⟨rfl, rfl, rfl⟩
  · intro r c ha
    cases hd : needDrop g
    · rw [moveInvaders_shift g hd]; simp [shiftInvader, ha]
    · rw [moveInvaders_drop g hd]; simp [dropInvader, ha]
  · cases hd : needDrop g
    · rw [moveInvaders_shift g hd]
    · rw [moveInvaders_drop g hd]
  · intro hin hcol hdir ⟨r, c, ha⟩
    have hd : needDrop g = true := by
      rw [needDrop_iff_exact g hin]
      exact ⟨r, c, ha, Or.inr (by rw [hcol r c, hdir]; simp [Width])⟩
    obtain ⟨h1, h2⟩ := hdrop hin hd
    refine ⟨by rw [h1, hdir], fun r c ha => ?_⟩
    exact ⟨(h2 r c ha).2.1, (h2 r c ha).2.2⟩

set_option maxRecDepth 100000 in
theorem moveInvaders_all_or_nothing_witness :
    ((moveInvaders edgeGame).InvaderDir = -edgeGame.InvaderDir ∧
      ∀ r c, (edgeGame.Invaders r c).Active = true →
        ((moveInvaders edgeGame).Invaders r c).Active = true ∧
        ((moveInvaders edgeGame).Invaders r c).Pos.Y = (edgeGame.Invaders r c).Pos.Y + 1 ∧
        ((moveInvaders edgeGame).Invaders r c).Pos.X = (edgeGame.Invaders r c).Pos.X) ∧
    ((moveInvaders NewGame).InvaderDir = NewGame.InvaderDir ∧
      ∀ r c, (NewGame.Invaders r c).Active = true →
        ((moveInvaders NewGame).Invaders r c).Active = true ∧
        ((moveInvaders NewGame).Invaders r c).Pos.X = (NewGame.Invaders r c).Pos.X + NewGame.InvaderDir ∧
        ((moveInvaders NewGame).Invaders r c).Pos.Y = (NewGame.Invaders r c).Pos.Y) ∧
    (moveInvaders clearedGame).Invaders 1 2 = clearedGame.Invaders 1 2 ∧
    ((moveInvaders edgeGame).InvaderDir = -1 ∧
      ∀ r c, (edgeGame.Invaders r c).Active = true →
        ((moveInvaders edgeGame).Invaders r c).Pos.Y = (edgeGame.Invaders r c).Pos.Y + 1 ∧
        ((moveInvaders edgeGame).Invaders r c).Pos.X = (edgeGame.Invaders r c).Pos.X) :=
  ⟨(moveInvaders_all_or_nothing edgeGame).1 (by unfold MoveInRange; decide) ⟨0, 0, by decide⟩,
   (moveInvaders_all_or_nothing NewGame).2.1 (by unfold MoveInRange; decide) (by decide),
   (moveInvaders_all_or_nothing clearedGame).2.2.1 1 2 (by decide),
   (moveInvaders_all_or_nothing edgeGame).2.2.2.2 (by unfold MoveInRange; decide) (by decide)
     (by decide) ⟨0, 0, by decide⟩⟩

/-! ## The specification: collisions -/

theorem length_eq_one_of_all_eq {α : Type} (l : List α) (hn : l.Nodup) (x : α) (hx : x ∈ l)
    (hall : ∀ y ∈ l, y = x) : l.length = 1 := by
  match l, hn, hx, hall with
  | [a], _, _, _ => rfl
  | a :: b :: t, hn, _, hall =>
    have ha : a = x := hall a (by simp)
    have hb : b = x := hall b (by simp)
    have : a ≠ b := by
      intro hab
      have := (List.nodup_cons.1 hn).1
      exact this (by simp [hab])
    exact absurd (ha.trans hb.symm) this

theorem isHit_iff (g : Game) (x : Fin InvaderRows × Fin InvaderCols) :
    isHit g x = true ↔ (g.Invaders x.1 x.2).Active = true ∧ (g.Invaders x.1 x.2).Pos = g.PlayerBullet.Pos := by
  simp [isHit]

theorem hitCount_eq_one (g : Game) (hd : DistinctActive g) (r : Fin InvaderRows) (c : Fin InvaderCols)
    (ha : (g.Invaders r c).Active = true) (hp : (g.Invaders r c).Pos = g.PlayerBullet.Pos) :
    hitCount g = 1 := by
  unfold hitCount
  rw [List.countP_eq_length_filter]
  apply length_eq_one_of_all_eq _ (nodup_allCells.filter _) (r, c)
  · rw [List.mem_filter]
    exact ⟨mem_allCells _, (isHit_iff g (r, c)).2 ⟨ha, hp⟩⟩
  · intro y hy
    rw [List.mem_filter] at hy
    obtain ⟨hya, hyp⟩ := (isHit_iff g y).1 hy.2
    obtain ⟨h1, h2⟩ := hd y.1 y.2 r c hya ha (hyp.trans hp.symm)
    exact Prod.ext h1 h2

theorem hitCount_eq_zero (g : Game)
    (h : ¬ ∃ r c, (g.Invaders r c).Active = true ∧ (g.Invaders r c).Pos = g.PlayerBullet.Pos) :
    hitCount g = 0 := by
  unfold hitCount
  rw [List.countP_eq_zero]
  intro x _ hx
  exact h ⟨x.1, x.2, (isHit_iff g x).1 hx⟩

theorem hitCount_le_one (g : Game) (hd : DistinctActive g) : hitCount g ≤ 1 := by
  by_cases h : ∃ r c, (g.Invaders r c).Active = true ∧ (g.Invaders r c).Pos = g.PlayerBullet.Pos
  · obtain ⟨r, c, ha, hp⟩ := h
    exact le_of_eq (hitCount_eq_one g hd r c ha hp)
  · rw [hitCount_eq_zero g h]; exact Nat.zero_le _

theorem checkCollisions_Invaders_eq (g : Game) :
    (checkCollisions g).Invaders =
      if g.PlayerBullet.Active = true then
        fun r c => hitInvader g.PlayerBullet.Pos (g.Invaders r c)
      else g.Invaders := by
  rw [checkCollisions_eq]; dsimp only; split_ifs <;> simp [hitLoop_eq]

theorem checkCollisions_Score_eq (g : Game) :
    (checkCollisions g).Score =
      if g.PlayerBullet.Active = true then addHits (hitCount g) g.Score else g.Score := by
  rw [checkCollisions_eq]; dsimp only; split_ifs <;> simp [hitLoop_eq]

theorem Bullet_inactive_eta (b : Bullet) (h : b.Active = false) :
    { Pos := b.Pos, Active := false, Dir := b.Dir } = b := by
  cases b; simp_all

theorem checkCollisions_PlayerBullet_eq (g : Game) :
    (checkCollisions g).PlayerBullet =
      { g.PlayerBullet with Active := g.PlayerBullet.Active && !(allCells.any (isHit g)) } := by
  rw [checkCollisions_eq]; dsimp only
  split_ifs <;> simp_all [hitLoop_eq, Bullet_inactive_eta]

theorem checkCollisions_InvaderBullet_eq (g : Game) :
    (checkCollisions g).InvaderBullet =
      if g.InvaderBullet.Active = true ∧ g.InvaderBullet.Pos = g.Player then
        { g.InvaderBullet with Active := false }
      else g.InvaderBullet := by
  rw [checkCollisions_eq]; dsimp only; split_ifs <;> simp_all

theorem checkCollisions_Lives_eq (g : Game) :
    (checkCollisions g).Lives =
      if g.InvaderBullet.Active = true ∧ g.InvaderBullet.Pos = g.Player then wrap (g.Lives - 1)
      else g.Lives := by
  rw [checkCollisions_eq]; dsimp only; split_ifs <;> simp_all

set_option maxRecDepth 100000 in
/-- C5 (as stated): the score after a hit is not always the old score plus 10.
On a state with pairwise distinct active enemies, the player projectile on the
enemy of cell (0, 0) and a score of `MaxInt - 7`, the addition overflows and
`checkCollisions` stores the score `-9223372036854775806`. -/
theorem checkCollisions_score_counterexample :
    DistinctActive maxScoreGame ∧ maxScoreGame.PlayerBullet.Active = true ∧
    (maxScoreGame.Invaders 0 0).Active = true ∧
    (maxScoreGame.Invaders 0 0).Pos = maxScoreGame.PlayerBullet.Pos ∧
    maxScoreGame.Score = MaxInt - 7 ∧
    (checkCollisions maxScoreGame).Score = -9223372036854775806 ∧
    (checkCollisions maxScoreGame).Score ≠ maxScoreGame.Score + 10 := by
  unfold DistinctActive
  decide

/-- C5 (amended): player projectile hit.  In a state whose active enemies occupy
pairwise distinct positions, whose player projectile is active and sits on the
position of an active enemy `e`, after `checkCollisions` enemy `e` is inactive,
the player projectile is inactive, every other enemy is unchanged (active flag
and position), and, provided the old score plus 10 does not overflow the 64-bit
`int` (`MinInt <= Score` and `Score + 10 <= MaxInt`), the score is exactly the
old score plus 10.  If the player projectile is inactive or sits on no active
enemy, the score and every enemy are unchanged. -/
theorem checkCollisions_player_hit (g : Game) :
    (DistinctActive g → g.PlayerBullet.Active = true →
      ∀ r c, (g.Invaders r c).Active = true → (g.Invaders r c).Pos = g.PlayerBullet.Pos →
        ((checkCollisions g).Invaders r c).Active = false ∧
        (checkCollisions g).PlayerBullet.Active = false ∧
        (MinInt ≤ g.Score → g.Score + 10 ≤ MaxInt → (checkCollisions g).Score = g.Score + 10) ∧
        ∀ r' c', (r', c') ≠ (r, c) → (checkCollisions g).Invaders r' c' = g.Invaders r' c') ∧
    ((g.PlayerBullet.Active = false ∨
        ¬ ∃ r c, (g.Invaders r c).Active = true ∧ (g.Invaders r c).Pos = g.PlayerBullet.Pos) →
      (checkCollisions g).Score = g.Score ∧ (checkCollisions g).Invaders = g.Invaders) := by
  constructor
  · intro hd hb r c ha hp
    refine ⟨?_, ?_, ?_, ?_⟩
    · rw [checkCollisions_Invaders_eq, if_pos hb]
      simp [hitInvader, ha, hp]
    · rw [checkCollisions_PlayerBullet_eq]
      have : allCells.any (isHit g) = true :=
        List.any_eq_true.2 ⟨(r, c), mem_allCells _, (isHit_iff g (r, c)).2 ⟨ha, hp⟩⟩
      simp [this]
    · intro h1 h2
      rw [checkCollisions_Score_eq, if_pos hb, hitCount_eq_one g hd r c ha hp, addHits_one]
      exact wrap_of_inRange _ (by omega) h2
    · intro r' c' hne
      rw [checkCollisions_Invaders_eq, if_pos hb]
      have hno : ¬ ((g.Invaders r' c').Active = true ∧ (g.Invaders r' c').Pos = g.PlayerBullet.Pos) := by
        rintro ⟨ha', hp'⟩
        obtain ⟨h1, h2⟩ := hd r' c' r c ha' ha (hp'.trans hp.symm)
        exact hne (by rw [h1, h2])
      simp only [hitInvader, if_neg hno]
  · intro h
    by_cases hb : g.PlayerBullet.Active = true
    · have hno : ¬ ∃ r c, (g.Invaders r c).Active = true ∧ (g.Invaders r c).Pos = g.PlayerBullet.Pos := by
        rcases h with h | h
        · rw [hb] at h; exact absurd h (by decide)
        · exact h
      constructor
      · rw [checkCollisions_Score_eq, if_pos hb, hitCount_eq_zero g hno, addHits_zero]
      · rw [checkCollisions_Invaders_eq, if_pos hb]
        funext r c
        have : ¬ ((g.Invaders r c).Active = true ∧ (g.Invaders r c).Pos = g.PlayerBullet.Pos) :=
          fun hh => hno ⟨r, c, hh⟩
        simp only [hitInvader, if_neg this]
    · constructor
      · rw [checkCollisions_Score_eq, if_neg hb]
      · rw [checkCollisions_Invaders_eq, if_neg hb]

set_option maxRecDepth 100000 in
theorem checkCollisions_player_hit_witness :
    (((checkCollisions bulletOnInvaderGame).Invaders 0 0).Active = false ∧
      (checkCollisions bulletOnInvaderGame).PlayerBullet.Active = false ∧
      (checkCollisions bulletOnInvaderGame).Score = bulletOnInvaderGame.Score + 10 ∧
      ∀ r' c', (r', c') ≠ ((0 : Fin InvaderRows), (0 : Fin InvaderCols)) →
        (checkCollisions bulletOnInvaderGame).Invaders r' c' = bulletOnInvaderGame.Invaders r' c') ∧
    ((checkCollisions NewGame).Score = NewGame.Score ∧
      (checkCollisions NewGame).Invaders = NewGame.Invaders) :=
  have h := (checkCollisions_player_hit bulletOnInvaderGame).1 (by unfold DistinctActive; decide)
    (by decide) 0 0 (by decide) (by decide)
  ⟨⟨h.1, h.2.1, h.2.2.1 (by decide) (by decide), h.2.2.2⟩,
   (checkCollisions_player_hit NewGame).2 (Or.inl (by decide))⟩

set_option maxRecDepth 100000 in
/-- C6 (as stated): `Lives` after a hit is not always the old value minus 1.  On
a state with the enemy projectile active on the player and `Lives = MinInt`,
the decrement overflows and `checkCollisions` stores `Lives = MaxInt`. -/
theorem checkCollisions_lives_counterexample :
    (minLivesGame.InvaderBullet.Active = true ∧ minLivesGame.InvaderBullet.Pos = minLivesGame.Player) ∧
    minLivesGame.Lives = MinInt ∧
    (checkCollisions minLivesGame).Lives = MaxInt ∧
    (checkCollisions minLivesGame).Lives ≠ minLivesGame.Lives - 1 := by
  decide

/-- C6 (amended): enemy projectile hit.  In a state whose enemy projectile is
active and sits on the player, after `checkCollisions` the enemy projectile is
inactive (position and direction kept) and, provided the decrement does not
overflow the 64-bit `int` (`MinInt < Lives <= MaxInt`), `Lives` is exactly the
old value minus 1; in every other state `checkCollisions` leaves `Lives` and the
enemy projectile unchanged.  Nothing is assumed about the player projectile, so
this holds whether or not it hits an enemy in the same call. -/
theorem checkCollisions_invader_hit (g : Game) :
    ((g.InvaderBullet.Active = true ∧ g.InvaderBullet.Pos = g.Player) →
      (checkCollisions g).InvaderBullet.Active = false ∧
      (checkCollisions g).InvaderBullet = { g.InvaderBullet with Active := false } ∧
      (MinInt < g.Lives → g.Lives ≤ MaxInt → (checkCollisions g).Lives = g.Lives - 1)) ∧
    (¬ (g.InvaderBullet.Active = true ∧ g.InvaderBullet.Pos = g.Player) →
      (checkCollisions g).Lives = g.Lives ∧ (checkCollisions g).InvaderBullet = g.InvaderBullet) := by
  constructor
  · intro h
    rw [checkCollisions_InvaderBullet_eq, checkCollisions_Lives_eq, if_pos h, if_pos h]
    exact ⟨rfl, rfl, fun h1 h2 => wrap_of_inRange _ (by omega) (by omega)⟩
  · intro h
    rw [checkCollisions_InvaderBullet_eq, checkCollisions_Lives_eq, if_neg h, if_neg h]
    exact ⟨rfl, rfl⟩

set_option maxRecDepth 100000 in
theorem checkCollisions_invader_hit_witness :
    ((checkCollisions bulletOnPlayerGame).InvaderBullet.Active = false ∧
      (checkCollisions bulletOnPlayerGame).InvaderBullet
        = { bulletOnPlayerGame.InvaderBullet with Active := false } ∧
      (checkCollisions bulletOnPlayerGame).Lives = bulletOnPlayerGame.Lives - 1) ∧
    ((checkCollisions bulletOnInvaderGame).Lives = bulletOnInvaderGame.Lives ∧
      (checkCollisions bulletOnInvaderGame).InvaderBullet = bulletOnInvaderGame.InvaderBullet) :=
  have h := (checkCollisions_invader_hit bulletOnPlayerGame).1 (by decide)
  ⟨⟨h.1, h.2.1, h.2.2 (by decide) (by decide)⟩,
   (checkCollisions_invader_hit bulletOnInvaderGame).2 (by decide)⟩

/-! ## Invariants of the reachable states -/

theorem ActiveInvaderCount_eq (g : Game) : ActiveInvaderCount g = (activeCells g : Int) := by
  have key := forCells_visited
    (fun r c (n : Int) => if (g.Invaders r c).Active then n + 1 else n)
    (fun done n => n = ((done.countP (fun x => (g.Invaders x.1 x.2).Active) : Nat) : Int))
    0 (by simp)
    (by
      intro done r c n _ hn
      subst hn
      by_cases ha : (g.Invaders r c).Active = true <;>
        simp [List.countP_append, List.countP_singleton, ha])
  exact key

theorem activeCells_congr (g g' : Game) (h : ∀ r c, (g'.Invaders r c).Active = (g.Invaders r c).Active) :
    activeCells g' = activeCells g := by
  unfold activeCells
  congr 1
  funext x
  exact h x.1 x.2

theorem ActiveInvaderCount_congr (g g' : Game)
    (h : ∀ r c, (g'.Invaders r c).Active = (g.Invaders r c).Active) :
    ActiveInvaderCount g' = ActiveInvaderCount g := by
  rw [ActiveInvaderCount_eq, ActiveInvaderCount_eq, activeCells_congr g g' h]

theorem activeCells_le (g : Game) : activeCells g ≤ 24 := by
  unfold activeCells
  exact le_trans (List.countP_le_length _) (by decide)

theorem DistinctActive_of_Formation (g : Game) (h : Formation g) : DistinctActive g := by
  obtain ⟨dx, dy, hf⟩ := h
  intro r c r' c' ha ha' hp
  rw [hf r c ha, hf r' c' ha'] at hp
  have hx := congrArg Point.X hp
  have hy := congrArg Point.Y hp
  simp only at hx hy
  constructor
  · apply Fin.ext; omega
  · apply Fin.ext; omega

theorem Formation_congr (g g' : Game) (h : g'.Invaders = g.Invaders) (hf : Formation g) :
    Formation g' := by
  unfold Formation
  rw [h]
  exact hf

theorem moveInvaders_Active (g : Game) (r : Fin InvaderRows) (c : Fin InvaderCols) :
    ((moveInvaders g).Invaders r c).Active = (g.Invaders r c).Active := by
  cases hd : needDrop g
  · rw [moveInvaders_shift g hd]
    by_cases ha : (g.Invaders r c).Active = true <;> simp [shiftInvader, ha]
  · rw [moveInvaders_drop g hd]
    by_cases ha : (g.Invaders r c).Active = true <;> simp [dropInvader, ha]

theorem beforeCollisions_Invaders_cases (g : Game) (choice : Nat) :
    (beforeCollisions g choice).Invaders = g.Invaders ∨
      ∃ g' : Game, g'.Invaders = g.Invaders ∧
        (beforeCollisions g choice).Invaders = (moveInvaders g').Invaders := by
  unfold beforeCollisions
  dsimp only
  split_ifs
  · right
    exact ⟨moveInvaderBullet (movePlayerBullet { g with Tick := wrap (g.Tick + 1) }), by simp, by simp⟩
  · left; simp

theorem beforeCollisions_Active (g : Game) (choice : Nat) (r : Fin InvaderRows) (c : Fin InvaderCols) :
    ((beforeCollisions g choice).Invaders r c).Active = (g.Invaders r c).Active := by
  rcases beforeCollisions_Invaders_cases g choice with h | ⟨g', h1, h2⟩
  · rw [h]
  · rw [h2, moveInvaders_Active, h1]

theorem hitInvader_Pos (p : Point) (inv : Invader) : (hitInvader p inv).Pos = inv.Pos := by
  unfold hitInvader; split_ifs <;> rfl

theorem hitInvader_Active (p : Point) (inv : Invader) :
    (hitInvader p inv).Active = (inv.Active && !decide (inv.Pos = p)) := by
  unfold hitInvader
  by_cases ha : inv.Active = true <;> by_cases hp : inv.Pos = p <;> simp [ha, hp]

theorem checkCollisions_Pos (g : Game) (r : Fin InvaderRows) (c : Fin InvaderCols) :
    ((checkCollisions g).Invaders r c).Pos = (g.Invaders r c).Pos := by
  rw [checkCollisions_Invaders_eq]
  split_ifs
  · exact hitInvader_Pos _ _
  · rfl

theorem checkCollisions_Active (g : Game) (r : Fin InvaderRows) (c : Fin InvaderCols) :
    ((checkCollisions g).Invaders r c).Active =
      ((g.Invaders r c).Active && !(g.PlayerBullet.Active && isHit g (r, c))) := by
  rw [checkCollisions_Invaders_eq]
  by_cases hb : g.PlayerBullet.Active = true
  · rw [if_pos hb, hitInvader_Active]
    by_cases ha : (g.Invaders r c).Active = true <;> simp [isHit, ha, hb]
  · rw [if_neg hb]
    simp [hb]

theorem checkCollisions_Active_imp (g : Game) (r : Fin InvaderRows) (c : Fin InvaderCols)
    (h : ((checkCollisions g).Invaders r c).Active = true) : (g.Invaders r c).Active = true := by
  rw [checkCollisions_Active] at h
  simp only [Bool.and_eq_true] at h
  exact h.1

theorem checkCollisions_Formation (g : Game) (hf : Formation g) : Formation (checkCollisions g) := by
  obtain ⟨dx, dy, hf⟩ := hf
  refine ⟨dx, dy, fun r c ha => ?_⟩
  rw [checkCollisions_Pos]
  exact hf r c (checkCollisions_Active_imp g r c ha)

theorem countP_split {α : Type} (a h a' : α → Bool)
    (hsplit : ∀ x, (a x = true ↔ (h x = true ∨ a' x = true)) ∧ ¬ (h x = true ∧ a' x = true)) :
    ∀ l : List α, l.countP a = l.countP h + l.countP a' := by
  intro l
  induction l with
  | nil => rfl
  | cons x l ih =>
    obtain ⟨h1, h2⟩ := hsplit x
    rw [List.countP_cons, List.countP_cons, List.countP_cons, ih]
    cases hh : h x <;> cases ha' : a' x <;> cases ha : a x <;> simp_all <;> omega

theorem checkCollisions_activeCells (g : Game) :
    activeCells g =
      (if g.PlayerBullet.Active = true then hitCount g else 0) + activeCells (checkCollisions g) := by
  by_cases hb : g.PlayerBullet.Active = true
  · rw [if_pos hb]
    unfold activeCells hitCount
    apply countP_split
    intro x
    rw [checkCollisions_Active]
    simp only [hb, Bool.true_and]
    cases hh : isHit g x <;> cases ha : (g.Invaders x.1 x.2).Active <;> simp
    rw [isHit_iff] at hh
    rw [ha] at hh
    exact absurd hh.1 (by decide)
  · rw [if_neg hb, Nat.zero_add]
    symm
    apply activeCells_congr
    intro r c
    rw [checkCollisions_Active]
    simp [hb]

set_option maxRecDepth 100000 in
theorem NewGame_Invaders (r : Fin InvaderRows) (c : Fin InvaderCols) :
    NewGame.Invaders r c = ⟨⟨3 + (c.val : Int) * 4, 2 + (r.val : Int) * 2⟩, true⟩ := by
  revert r c
  decide

set_option maxRecDepth 100000 in
theorem Reach_NewGame : Reach NewGame where
  formation := ⟨0, 0, fun r c _ => by rw [NewGame_Invaders]; simp⟩
  playerX := by decide
  playerY := by decide
  score := by decide
  won := by
    intro h
    exact absurd h (by decide)

theorem checkWinLoss_won (g : Game) (h : (checkWinLoss g).State = StateWon) :
    g.State = StateWon ∨ ∀ r c, (g.Invaders r c).Active = false := by
  unfold checkWinLoss at h
  split_ifs at h with h1 h2 h3
  · left; exact h
  · right
    have := (anyCell_eq_false _).1 (by simpa using h3)
    exact this

theorem activeCells_eq_zero (g : Game) (h : ∀ r c, (g.Invaders r c).Active = false) :
    activeCells g = 0 := by
  unfold activeCells
  rw [List.countP_eq_zero]
  intro x _
  simp [h x.1 x.2]

theorem eq_ofFrame (g : Game) (f : Frame) (h : toFrame g = f) : g = ofFrame f := by
  subst h
  cases g with
  | mk P PB I IB S L T D St =>
    simp only [ofFrame, toFrame, Game.mk.injEq, true_and, and_true]
    funext r c
    fin_cases r <;> fin_cases c <;> rfl

set_option maxRecDepth 10000000 in
theorem winningOps1_run : run NewGame winningOps1 = ofFrame winningFrame1 :=
  eq_ofFrame _ _ (by decide!)

set_option maxRecDepth 10000000 in
theorem winningOps2_run : run (ofFrame winningFrame1) winningOps2 = ofFrame winningFrame2 :=
  eq_ofFrame _ _ (by decide!)

set_option maxRecDepth 10000000 in
theorem winningOps3_run : run (ofFrame winningFrame2) winningOps3 = ofFrame winningFrame3 :=
  eq_ofFrame _ _ (by decide!)

set_option maxRecDepth 10000000 in
theorem winningOps4_run : (run (ofFrame winningFrame3) winningOps4).State = StateWon := by
  decide!

theorem winningOps_State : (run NewGame winningOps).State = StateWon := by
  unfold winningOps
  rw [run_append, run_append, run_append, winningOps1_run, winningOps2_run, winningOps3_run]
  exact winningOps4_run

/-! ## The specification: player movement -/

/-- C10: clamped movement without a phase guard.  For every game state, of any
phase, whose player column `x` is in `[1, W-2]`, `MoveLeft` sets the column to
`max 1 (x-1)` and `MoveRight` sets it to `min (W-2) (x+1)`, and both leave the
row of the player and every other field unchanged; for `2 <= x`, `MoveLeft`
followed by `MoveRight` gives the state back, the player at column `x` again. -/
theorem move_clamped (g : Game) (h1 : 1 ≤ g.Player.X) (h2 : g.Player.X ≤ Width - 2) :
    MoveLeft g = { g with Player := { g.Player with X := max 1 (g.Player.X - 1) } } ∧
    MoveRight g = { g with Player := { g.Player with X := min (Width - 2) (g.Player.X + 1) } } ∧
    (2 ≤ g.Player.X → MoveRight (MoveLeft g) = g ∧ (MoveRight (MoveLeft g)).Player.X = g.Player.X) := by
  have hW : Width = 40 := rfl
  refine ⟨?_, ?_, ?_⟩
  · unfold MoveLeft
    split_ifs with h
    · rw [max_eq_right (by omega)]
    · have : g.Player.X = 1 := by omega
      rw [max_eq_left (by omega)]
      conv_lhs => rw [show g = { g with Player := { g.Player with X := g.Player.X } } from rfl]
      rw [this]
  · unfold MoveRight
    split_ifs with h
    · rw [min_eq_right (by omega)]
    · have : g.Player.X = Width - 2 := by omega
      rw [min_eq_left (by omega)]
      conv_lhs => rw [show g = { g with Player := { g.Player with X := g.Player.X } } from rfl]
      rw [this]
  · intro h3
    have : MoveRight (MoveLeft g) = g := by
      have hl : MoveLeft g = { g with Player := { g.Player with X := g.Player.X - 1 } } := by
        unfold MoveLeft
        rw [if_pos (by omega)]
      rw [hl]
      unfold MoveRight
      rw [if_pos (by simp only []; omega)]
      simp
    exact ⟨this, by rw [this]⟩

set_option maxRecDepth 100000 in
theorem move_clamped_witness :
    (MoveLeft lostGame = { lostGame with Player := { lostGame.Player with X := max 1 (lostGame.Player.X - 1) } } ∧
      MoveRight lostGame
        = { lostGame with Player := { lostGame.Player with X := min (Width - 2) (lostGame.Player.X + 1) } }) ∧
    (MoveRight (MoveLeft NewGame) = NewGame ∧ (MoveRight (MoveLeft NewGame)).Player.X = NewGame.Player.X) :=
  ⟨⟨(move_clamped lostGame (by decide) (by decide)).1, (move_clamped lostGame (by decide) (by decide)).2.1⟩,
   (move_clamped NewGame (by decide) (by decide)).2.2 (by decide)⟩

/-! ## The specification: player commands -/

/-- C11 (as stated): from a column outside `[1, W-2]` a move need not bring the
player back into the range.  From column 100, `MoveLeft` gives column 99 and
`MoveRight` leaves column 100, also when repeated. -/
theorem move_out_of_range_counterexample :
    (MoveLeft strayGame).Player.X = 99 ∧ ¬ (MoveLeft strayGame).Player.X ≤ Width - 2 ∧
    (MoveRight strayGame).Player.X = 100 ∧ ¬ (MoveRight strayGame).Player.X ≤ Width - 2 ∧
    ¬ (MoveRight (MoveRight (MoveRight strayGame))).Player.X ≤ Width - 2 ∧
    ¬ (MoveLeft (MoveLeft (MoveLeft strayGame))).Player.X ≤ Width - 2 := by
  decide

theorem MoveLeft_range (g : Game) (h : 1 ≤ g.Player.X ∧ g.Player.X ≤ Width - 2) :
    1 ≤ (MoveLeft g).Player.X ∧ (MoveLeft g).Player.X ≤ Width - 2 := by
  unfold MoveLeft
  split_ifs <;> constructor <;> simp only [Width] at * <;> omega

theorem MoveRight_range (g : Game) (h : 1 ≤ g.Player.X ∧ g.Player.X ≤ Width - 2) :
    1 ≤ (MoveRight g).Player.X ∧ (MoveRight g).Player.X ≤ Width - 2 := by
  unfold MoveRight
  split_ifs <;> constructor <;> simp only [Width] at * <;> omega

theorem iterate_range (f : Game → Game)
    (hf : ∀ g, (1 ≤ g.Player.X ∧ g.Player.X ≤ Width - 2) →
      1 ≤ (f g).Player.X ∧ (f g).Player.X ≤ Width - 2)
    (n : Nat) (g : Game) (h : 1 ≤ g.Player.X ∧ g.Player.X ≤ Width - 2) :
    1 ≤ (f^[n] g).Player.X ∧ (f^[n] g).Player.X ≤ Width - 2 := by
  induction n generalizing g with
  | zero => exact h
  | succ n ih =>
    rw [Function.iterate_succ_apply]
    exact ih (f g) (hf g h)

/-- C11 (amended): for every game state whose player column lies within
`[1, W-2]`, after one call of `MoveLeft` or of `MoveRight`, after any number of
repeated calls of either, and after any finite sequence mixing the two, the
player column lies within `[1, W-2]`. -/
theorem move_stays_in_range (g : Game) (h1 : 1 ≤ g.Player.X) (h2 : g.Player.X ≤ Width - 2) :
    (1 ≤ (MoveLeft g).Player.X ∧ (MoveLeft g).Player.X ≤ Width - 2) ∧
    (1 ≤ (MoveRight g).Player.X ∧ (MoveRight g).Player.X ≤ Width - 2) ∧
    (∀ n : Nat, 1 ≤ (MoveLeft^[n] g).Player.X ∧ (MoveLeft^[n] g).Player.X ≤ Width - 2) ∧
    (∀ n : Nat, 1 ≤ (MoveRight^[n] g).Player.X ∧ (MoveRight^[n] g).Player.X ≤ Width - 2) ∧
    (∀ ops : List Op, (∀ op ∈ ops, op = Op.moveLeft ∨ op = Op.moveRight) →
      1 ≤ (run g ops).Player.X ∧ (run g ops).Player.X ≤ Width - 2) := by
  refine ⟨MoveLeft_range g ⟨h1, h2⟩, MoveRight_range g ⟨h1, h2⟩,
    fun n => iterate_range MoveLeft MoveLeft_range n g ⟨h1, h2⟩,
    fun n => iterate_range MoveRight MoveRight_range n g ⟨h1, h2⟩, ?_⟩
  intro ops
  have h : 1 ≤ g.Player.X ∧ g.Player.X ≤ Width - 2 := ⟨h1, h2⟩
  clear h1 h2
  induction ops generalizing g with
  | nil => intro _; exact h
  | cons op ops ih =>
    intro hops
    rw [run_cons]
    apply ih
    · rcases hops op (List.mem_cons_self _ _) with ho | ho
      · rw [ho]; exact MoveLeft_range g h
      · rw [ho]; exact MoveRight_range g h
    · intro op' hop'
      exact hops op' (List.mem_cons_of_mem _ hop')

set_option maxRecDepth 100000 in
theorem move_stays_in_range_witness :
    (1 ≤ (MoveLeft NewGame).Player.X ∧ (MoveLeft NewGame).Player.X ≤ Width - 2) ∧
    (1 ≤ (MoveRight^[50] NewGame).Player.X ∧ (MoveRight^[50] NewGame).Player.X ≤ Width - 2) ∧
    (1 ≤ (run NewGame [Op.moveLeft, Op.moveRight, Op.moveRight]).Player.X ∧
      (run NewGame [Op.moveLeft, Op.moveRight, Op.moveRight]).Player.X ≤ Width - 2) :=
  ⟨(move_stays_in_range NewGame (by decide) (by decide)).1,
   (move_stays_in_range NewGame (by decide) (by decide)).2.2.2.1 50,
   (move_stays_in_range NewGame (by decide) (by decide)).2.2.2.2 _ (by simp)⟩

set_option maxRecDepth 100000 in
/-- C12 (as stated): the new projectile is not always at row `player.y - 1`.
With the player at row `MinInt` the subtraction overflows and `Shoot` puts the
projectile at row `MaxInt`. -/
theorem Shoot_row_counterexample :
    lowPlayerGame.PlayerBullet.Active = false ∧ lowPlayerGame.Player.Y = MinInt ∧
    (Shoot lowPlayerGame).PlayerBullet.Pos.Y = MaxInt ∧
    (Shoot lowPlayerGame).PlayerBullet.Pos.Y ≠ lowPlayerGame.Player.Y - 1 := by
  decide

/-- C12 (amended): single player projectile.  If the player projectile is
inactive and `player.y - 1` does not overflow the 64-bit `int`
(`MinInt < player.y <= MaxInt`), `Shoot` makes it active at
`(player.x, player.y - 1)` with direction `-1` and changes nothing else; if it
is already active, `Shoot` leaves the entire state unchanged, in particular the
position of the projectile in flight. -/
theorem Shoot_single_projectile (g : Game) :
    (g.PlayerBullet.Active = false → MinInt < g.Player.Y → g.Player.Y ≤ MaxInt →
      Shoot g = { g with PlayerBullet :=
                    { Pos := ⟨g.Player.X, g.Player.Y - 1⟩, Active := true, Dir := -1 } }) ∧
    (g.PlayerBullet.Active = true → Shoot g = g ∧ (Shoot g).PlayerBullet.Pos = g.PlayerBullet.Pos) := by
  constructor
  · intro h h1 h2
    simp [Shoot, h, wrap_of_inRange _ (show MinInt ≤ g.Player.Y - 1 by omega)
      (show g.Player.Y - 1 ≤ MaxInt by omega)]
  · intro h
    have : Shoot g = g := by simp [Shoot, h]
    exact ⟨this, by rw [this]⟩

set_option maxRecDepth 100000 in
theorem Shoot_single_projectile_witness :
    Shoot NewGame = { NewGame with PlayerBullet :=
                        { Pos := ⟨NewGame.Player.X, NewGame.Player.Y - 1⟩, Active := true, Dir := -1 } } ∧
    (Shoot shotGame = shotGame ∧ (Shoot shotGame).PlayerBullet.Pos = shotGame.PlayerBullet.Pos) :=
  ⟨(Shoot_single_projectile NewGame).1 (by decide) (by decide) (by decide),
   (Shoot_single_projectile shotGame).2 (by decide)⟩

/-! ## The specification: the enemy grid -/

theorem moveInvaders_inactive (g : Game) (r : Fin InvaderRows) (c : Fin InvaderCols)
    (h : (g.Invaders r c).Active = false) : (moveInvaders g).Invaders r c = g.Invaders r c := by
  cases hd : needDrop g
  · rw [moveInvaders_shift g hd]; simp [shiftInvader, h]
  · rw [moveInvaders_drop g hd]; simp [dropInvader, h]

theorem beforeCollisions_inactive (g : Game) (choice : Nat) (r : Fin InvaderRows)
    (c : Fin InvaderCols) (h : (g.Invaders r c).Active = false) :
    (beforeCollisions g choice).Invaders r c = g.Invaders r c := by
  rcases beforeCollisions_Invaders_cases g choice with h1 | ⟨g', h1, h2⟩
  · rw [h1]
  · rw [h2, moveInvaders_inactive g' r c (by rw [h1]; exact h), h1]

theorem Update_inactive (g : Game) (choice : Nat) (r : Fin InvaderRows) (c : Fin InvaderCols)
    (h : (g.Invaders r c).Active = false) :
    ((Update g choice).Invaders r c).Active = false ∧
      ((Update g choice).Invaders r c).Pos = (g.Invaders r c).Pos := by
  by_cases hp : g.State = StatePlaying
  · rw [Update_playing g choice hp, checkWinLoss_Invaders, checkCollisions_Active,
      checkCollisions_Pos, beforeCollisions_inactive g choice r c h]
    simp [h]
  · rw [Update_of_not_playing g choice hp]
    exact ⟨h, rfl⟩

/-- C13: enemies are never reactivated and dead enemies never move.  For every
game state and every operation among `MoveLeft`, `MoveRight`, `Shoot` and
`Update` (with any random choice), an enemy that is inactive before the
operation is inactive afterwards and has the same position; `MoveLeft`,
`MoveRight` and `Shoot` leave the whole enemy grid unchanged. -/
theorem inactive_enemies_stay (g : Game) :
    (∀ (op : Op) r c, (g.Invaders r c).Active = false →
      ((step g op).Invaders r c).Active = false ∧
      ((step g op).Invaders r c).Pos = (g.Invaders r c).Pos) ∧
    (MoveLeft g).Invaders = g.Invaders ∧ (MoveRight g).Invaders = g.Invaders ∧
    (Shoot g).Invaders = g.Invaders := by
  refine ⟨?_, by simp, by simp, by simp⟩
  intro op r c h
  cases op with
  | moveLeft => simp [step, h]
  | moveRight => simp [step, h]
  | shoot => simp [step, h]
  | update choice => exact Update_inactive g choice r c h

set_option maxRecDepth 100000 in
theorem inactive_enemies_stay_witness :
    ((step tick14Game (Op.update 0)).Invaders 0 0).Active = false ∧
      ((step tick14Game (Op.update 0)).Invaders 0 0).Pos = (tick14Game.Invaders 0 0).Pos :=
  (inactive_enemies_stay tick14Game).1 (Op.update 0) 0 0 (by decide)

/-! ## The specification: projectile guard-rails -/

theorem movePlayerBullet_of_inactive (g : Game) (h : g.PlayerBullet.Active = false) :
    movePlayerBullet g = g := by
  simp [movePlayerBullet, h]

theorem movePlayerBullet_of_active (g : Game) (h : g.PlayerBullet.Active = true) :
    (movePlayerBullet g).PlayerBullet =
      { Pos := ⟨g.PlayerBullet.Pos.X, wrap (g.PlayerBullet.Pos.Y + g.PlayerBullet.Dir)⟩
        Active := decide (¬ wrap (g.PlayerBullet.Pos.Y + g.PlayerBullet.Dir) < 1)
        Dir := g.PlayerBullet.Dir } := by
  unfold movePlayerBullet
  simp only [h, Bool.not_true, Bool.false_eq_true, if_false]
  split_ifs with h1 <;> simp [h, h1]

theorem iterate_of_fixed {α : Type} (f : α → α) (x : α) (h : f x = x) (n : Nat) : f^[n] x = x := by
  induction n with
  | zero => rfl
  | succ n ih => rw [Function.iterate_succ_apply, h, ih]

set_option maxRecDepth 100000 in
/-- C18 (as stated): an active player projectile of direction `-1` is not always
moved to row `y-1`, nor deactivated whenever `y-1 < 1`.  At row `MinInt` the
subtraction overflows: `movePlayerBullet` stores row `MaxInt` and the projectile
stays active although `y-1 >= 1` fails. -/
theorem movePlayerBullet_top_rail_counterexample :
    minRowBulletGame.PlayerBullet.Active = true ∧ minRowBulletGame.PlayerBullet.Dir = -1 ∧
    minRowBulletGame.PlayerBullet.Pos.Y = MinInt ∧
    (movePlayerBullet minRowBulletGame).PlayerBullet.Pos.Y = MaxInt ∧
    (movePlayerBullet minRowBulletGame).PlayerBullet.Pos.Y ≠ minRowBulletGame.PlayerBullet.Pos.Y - 1 ∧
    (movePlayerBullet minRowBulletGame).PlayerBullet.Active = true ∧
    ¬ minRowBulletGame.PlayerBullet.Pos.Y - 1 ≥ 1 := by
  decide

/-- C18 (amended): top guard-rail.  An active player projectile of direction
`-1` at a row `y` for which `y-1` does not overflow the 64-bit `int`
(`MinInt < y <= MaxInt`) is moved by `movePlayerBullet` to row `y-1` in the same
column and remains active if and only if `y-1 >= 1`; an inactive projectile
leaves the state unchanged.  Consequently a projectile at row 2 is still active,
at row 1, after one move, inactive after two moves, and inactive after any
further moves. -/
theorem movePlayerBullet_top_rail (g : Game) :
    (g.PlayerBullet.Active = true → g.PlayerBullet.Dir = -1 →
      MinInt < g.PlayerBullet.Pos.Y → g.PlayerBullet.Pos.Y ≤ MaxInt →
      (movePlayerBullet g).PlayerBullet.Pos = ⟨g.PlayerBullet.Pos.X, g.PlayerBullet.Pos.Y - 1⟩ ∧
      ((movePlayerBullet g).PlayerBullet.Active = true ↔ g.PlayerBullet.Pos.Y - 1 ≥ 1)) ∧
    (g.PlayerBullet.Active = false → movePlayerBullet g = g) ∧
    (g.PlayerBullet.Active = true → g.PlayerBullet.Dir = -1 → g.PlayerBullet.Pos.Y = 2 →
      (movePlayerBullet g).PlayerBullet.Active = true ∧
      (movePlayerBullet g).PlayerBullet.Pos.Y = 1 ∧
      (movePlayerBullet (movePlayerBullet g)).PlayerBullet.Active = false ∧
      ∀ n : Nat,
        (movePlayerBullet^[n] (movePlayerBullet (movePlayerBullet g))).PlayerBullet.Active = false) := by
  refine ⟨?_, movePlayerBullet_of_inactive g, ?_⟩
  · intro ha hd hmin hmax
    rw [movePlayerBullet_of_active g ha, hd,
      wrap_of_inRange (g.PlayerBullet.Pos.Y + -1) (by omega) (by omega)]
    refine ⟨rfl, ?_⟩
    simp only [decide_eq_true_eq]
    constructor <;> intro h <;> omega
  · intro ha hd hy
    have e1 : wrap (2 + -1) = 1 := by decide
    have e2 : wrap (1 + -1) = 0 := by decide
    have h1 := movePlayerBullet_of_active g ha
    rw [hd, hy, e1] at h1
    have ha1 : (movePlayerBullet g).PlayerBullet.Active = true := by rw [h1]; simp
    have h2 := movePlayerBullet_of_active (movePlayerBullet g) ha1
    rw [h1] at h2
    simp only [e2] at h2
    have ha2 : (movePlayerBullet (movePlayerBullet g)).PlayerBullet.Active = false := by
      rw [h2]; simp
    refine ⟨ha1, by rw [h1], ha2, fun n => ?_⟩
    rw [iterate_of_fixed movePlayerBullet _ (movePlayerBullet_of_inactive _ ha2) n]
    exact ha2

set_option maxRecDepth 100000 in
theorem movePlayerBullet_top_rail_witness :
    ((movePlayerBullet shotGame).PlayerBullet.Pos
        = ⟨shotGame.PlayerBullet.Pos.X, shotGame.PlayerBullet.Pos.Y - 1⟩ ∧
      ((movePlayerBullet shotGame).PlayerBullet.Active = true ↔ shotGame.PlayerBullet.Pos.Y - 1 ≥ 1)) ∧
    movePlayerBullet NewGame = NewGame ∧
    ((movePlayerBullet nearTopGame).PlayerBullet.Active = true ∧
      (movePlayerBullet nearTopGame).PlayerBullet.Pos.Y = 1 ∧
      (movePlayerBullet (movePlayerBullet nearTopGame)).PlayerBullet.Active = false ∧
      ∀ n : Nat,
        (movePlayerBullet^[n] (movePlayerBullet (movePlayerBullet nearTopGame))).PlayerBullet.Active
          = false) :=
  ⟨(movePlayerBullet_top_rail shotGame).1 (by decide) (by decide) (by decide) (by decide),
   (movePlayerBullet_top_rail NewGame).2.1 (by decide),
   (movePlayerBullet_top_rail nearTopGame).2.2 (by decide) (by decide) (by decide)⟩

theorem moveInvaderBullet_of_inactive (g : Game) (h : g.InvaderBullet.Active = false) :
    moveInvaderBullet g = g := by
  simp [moveInvaderBullet, h]

theorem moveInvaderBullet_of_active (g : Game) (h : g.InvaderBullet.Active = true) :
    (moveInvaderBullet g).InvaderBullet =
      { Pos := ⟨g.InvaderBullet.Pos.X, wrap (g.InvaderBullet.Pos.Y + g.InvaderBullet.Dir)⟩
        Active := decide (¬ wrap (g.InvaderBullet.Pos.Y + g.InvaderBullet.Dir) ≥ Height - 1)
        Dir := g.InvaderBullet.Dir } := by
  unfold moveInvaderBullet
  simp only [h, Bool.not_true, Bool.false_eq_true, if_false]
  split_ifs with h1 <;> simp [h, h1]

set_option maxRecDepth 100000 in
/-- C19 (as stated): an active enemy projectile of direction `+1` is not always
moved to row `y+1`, nor deactivated whenever `y+1 >= H-1`.  At row `MaxInt` the
addition overflows: `moveInvaderBullet` stores row `MinInt` and the projectile
stays active although `y+1 < H-1` fails. -/
theorem moveInvaderBullet_bottom_rail_counterexample :
    maxRowBulletGame.InvaderBullet.Active = true ∧ maxRowBulletGame.InvaderBullet.Dir = 1 ∧
    maxRowBulletGame.InvaderBullet.Pos.Y = MaxInt ∧
    (moveInvaderBullet maxRowBulletGame).InvaderBullet.Pos.Y = MinInt ∧
    (moveInvaderBullet maxRowBulletGame).InvaderBullet.Pos.Y ≠ maxRowBulletGame.InvaderBullet.Pos.Y + 1 ∧
    (moveInvaderBullet maxRowBulletGame).InvaderBullet.Active = true ∧
    ¬ maxRowBulletGame.InvaderBullet.Pos.Y + 1 < Height - 1 := by
  decide

/-- C19 (amended): bottom guard-rail.  An active enemy projectile of direction
`+1` at a row `y` for which `y+1` does not overflow the 64-bit `int`
(`MinInt <= y < MaxInt`) is moved by `moveInvaderBullet` to row `y+1` in the
same column and remains active if and only if `y+1 < H-1`; an inactive
projectile leaves the state unchanged.  In particular a projectile at row `H-2`
is deactivated by one move, and a projectile that arrives at the row `H-2` of
the player is still active there. -/
theorem moveInvaderBullet_bottom_rail (g : Game) :
    (g.InvaderBullet.Active = true → g.InvaderBullet.Dir = 1 →
      MinInt ≤ g.InvaderBullet.Pos.Y → g.InvaderBullet.Pos.Y < MaxInt →
      (moveInvaderBullet g).InvaderBullet.Pos = ⟨g.InvaderBullet.Pos.X, g.InvaderBullet.Pos.Y + 1⟩ ∧
      ((moveInvaderBullet g).InvaderBullet.Active = true ↔ g.InvaderBullet.Pos.Y + 1 < Height - 1)) ∧
    (g.InvaderBullet.Active = false → moveInvaderBullet g = g) ∧
    (g.InvaderBullet.Active = true → g.InvaderBullet.Dir = 1 → g.InvaderBullet.Pos.Y = Height - 2 →
      (moveInvaderBullet g).InvaderBullet.Active = false) ∧
    (g.InvaderBullet.Active = true → g.InvaderBullet.Dir = 1 → g.InvaderBullet.Pos.Y + 1 = Height - 2 →
      (moveInvaderBullet g).InvaderBullet.Active = true ∧
      (moveInvaderBullet g).InvaderBullet.Pos.Y = Height - 2) := by
  have hH : Height = 20 := rfl
  refine ⟨?_, moveInvaderBullet_of_inactive g, ?_, ?_⟩
  · intro ha hd hmin hmax
    rw [moveInvaderBullet_of_active g ha, hd,
      wrap_of_inRange (g.InvaderBullet.Pos.Y + 1) (by omega) (by omega)]
    refine ⟨rfl, ?_⟩
    simp only [decide_eq_true_eq]
    constructor <;> intro h <;> omega
  · intro ha hd hy
    have e : wrap (Height - 2 + 1) = 19 := by decide
    rw [moveInvaderBullet_of_active g ha, hd, hy, e]
    simp [Height]
  · intro ha hd hy
    have e : wrap (g.InvaderBullet.Pos.Y + 1) = g.InvaderBullet.Pos.Y + 1 :=
      wrap_of_inRange _ (by rw [hy, hH]; decide) (by rw [hy, hH]; decide)
    rw [moveInvaderBullet_of_active g ha, hd, e]
    refine ⟨?_, hy⟩
    simp only [decide_eq_true_eq]
    omega

set_option maxRecDepth 100000 in
theorem moveInvaderBullet_bottom_rail_witness :
    ((moveInvaderBullet abovePlayerRowGame).InvaderBullet.Pos
        = ⟨abovePlayerRowGame.InvaderBullet.Pos.X, abovePlayerRowGame.InvaderBullet.Pos.Y + 1⟩ ∧
      ((moveInvaderBullet abovePlayerRowGame).InvaderBullet.Active = true
        ↔ abovePlayerRowGame.InvaderBullet.Pos.Y + 1 < Height - 1)) ∧
    moveInvaderBullet NewGame = NewGame ∧
    (moveInvaderBullet nearBottomGame).InvaderBullet.Active = false ∧
    ((moveInvaderBullet abovePlayerRowGame).InvaderBullet.Active = true ∧
      (moveInvaderBullet abovePlayerRowGame).InvaderBullet.Pos.Y = Height - 2) :=
  ⟨(moveInvaderBullet_bottom_rail abovePlayerRowGame).1 (by decide) (by decide) (by decide) (by decide),
   (moveInvaderBullet_bottom_rail NewGame).2.1 (by decide),
   (moveInvaderBullet_bottom_rail nearBottomGame).2.2.1 (by decide) (by decide) (by decide),
   (moveInvaderBullet_bottom_rail abovePlayerRowGame).2.2.2 (by decide) (by decide) (by decide)⟩

/-! ## The specification: initial state -/

set_option maxRecDepth 100000 in
/-- C15: initial state.  `NewGame` has the player at `(W/2, H-2) = (20, 18)`,
`Lives = 3`, `Score = 0`, `Tick = 0`, phase Playing, formation direction `+1`,
both projectiles inactive, and for every `r < 3` and `c < 8` the enemy of grid
cell `(r, c)` active at position `(3 + 4c, 2 + 2r)`.  Its `ActiveInvaderCount`
is `R*C = 24`, and deactivating any one enemy makes the count exactly 23. -/
theorem NewGame_initial :
    NewGame.Player = ⟨Width / 2, Height - 2⟩ ∧ NewGame.Player = ⟨20, 18⟩ ∧
    NewGame.Lives = 3 ∧ NewGame.Score = 0 ∧ NewGame.Tick = 0 ∧ NewGame.State = StatePlaying ∧
    NewGame.InvaderDir = 1 ∧
    NewGame.PlayerBullet.Active = false ∧ NewGame.InvaderBullet.Active = false ∧
    (∀ (r : Fin InvaderRows) (c : Fin InvaderCols),
      (NewGame.Invaders r c).Active = true ∧
      (NewGame.Invaders r c).Pos = ⟨3 + 4 * (c.val : Int), 2 + 2 * (r.val : Int)⟩) ∧
    ActiveInvaderCount NewGame = ((InvaderRows * InvaderCols : Nat) : Int) ∧
    InvaderRows * InvaderCols = 24 ∧
    (∀ (r : Fin InvaderRows) (c : Fin InvaderCols),
      ActiveInvaderCount (setInvader NewGame r c { NewGame.Invaders r c with Active := false })
        = 23) := by
  repeat' apply And.intro
  all_goals decide

/-! ## The specification: formation cadence and enemy fire -/

theorem needDrop_congr (g g' : Game) (hI : g'.Invaders = g.Invaders)
    (hD : g'.InvaderDir = g.InvaderDir) : needDrop g' = needDrop g := by
  rw [Bool.eq_iff_iff, needDrop_iff, needDrop_iff, hI, hD]

theorem moveInvaders_congr (g g' : Game) (hI : g'.Invaders = g.Invaders)
    (hD : g'.InvaderDir = g.InvaderDir) :
    (moveInvaders g').Invaders = (moveInvaders g).Invaders ∧
      (moveInvaders g').InvaderDir = (moveInvaders g).InvaderDir := by
  have hn := needDrop_congr g g' hI hD
  cases hd : needDrop g
  · rw [moveInvaders_shift g hd, moveInvaders_shift g' (hn.trans hd)]
    simp [hI, hD]
  · rw [moveInvaders_drop g hd, moveInvaders_drop g' (hn.trans hd)]
    simp [hI, hD]

theorem beforeCollisions_Tick (g : Game) (choice : Nat) :
    (beforeCollisions g choice).Tick = wrap (g.Tick + 1) := by
  unfold beforeCollisions; dsimp only; split_ifs <;> simp

theorem dvd_wrap_succ (t : Int) (h1 : MinInt ≤ t) (h2 : t ≤ MaxInt) :
    InvaderSteps ∣ wrap (t + 1) ↔ InvaderSteps ∣ t + 1 := by
  by_cases hlt : t < MaxInt
  · rw [wrap_of_inRange _ (by omega) (by omega)]
  · have ht : t = MaxInt := by omega
    subst ht
    have e : wrap (MaxInt + 1) = MinInt := by decide
    rw [e]
    unfold InvaderSteps MinInt MaxInt
    omega

theorem beforeCollisions_on_formation_tick (g : Game) (choice : Nat)
    (h : InvaderSteps ∣ wrap (g.Tick + 1)) :
    (beforeCollisions g choice).Invaders = (moveInvaders g).Invaders ∧
      (beforeCollisions g choice).InvaderDir = (moveInvaders g).InvaderDir := by
  have ht : Int.tmod (wrap (g.Tick + 1)) InvaderSteps = 0 := Int.tmod_eq_zero_of_dvd h
  unfold beforeCollisions
  dsimp only
  rw [if_pos (by simpa using ht)]
  simp only [maybeInvaderShoot_frame]
  exact moveInvaders_congr g _ (by simp) (by simp)

theorem beforeCollisions_off_formation_tick (g : Game) (choice : Nat)
    (h : ¬ InvaderSteps ∣ wrap (g.Tick + 1)) :
    beforeCollisions g choice = moveInvaderBullet (movePlayerBullet { g with Tick := wrap (g.Tick + 1) }) := by
  have ht : ¬ Int.tmod (wrap (g.Tick + 1)) InvaderSteps = 0 :=
    fun h0 => h (Int.dvd_of_tmod_eq_zero h0)
  unfold beforeCollisions
  dsimp only
  rw [if_neg (by simpa using ht)]

set_option maxRecDepth 100000 in
/-- C16 (as stated): `Update` does not always set the tick counter to `t+1`.  On
a state in phase Playing with tick counter `MaxInt` the increment overflows and
the tick counter becomes `MinInt`. -/
theorem Update_tick_counterexample :
    maxTickGame.State = StatePlaying ∧ maxTickGame.Tick = MaxInt ∧
    (Update maxTickGame 0).Tick = MinInt ∧
    (Update maxTickGame 0).Tick ≠ maxTickGame.Tick + 1 := by
  decide

/-- C16 (amended): formation cadence.  For every game state in phase Playing
whose tick counter `t` is a 64-bit `int` (`MinInt <= t <= MaxInt`): `Update`
sets the tick counter to `t+1`, provided `t+1` does not overflow
(`t < MaxInt`).  If `t+1` is not a multiple of `InvaderSteps = 15`, the
positions of all enemies and the formation direction are unchanged by that
`Update`, and an inactive enemy projectile stays inactive.  If `t+1` is a
multiple of 15, the enemy positions and the direction after `Update` are exactly
those produced by one `moveInvaders` step on the state before it. -/
theorem Update_cadence (g : Game) (choice : Nat) (h : g.State = StatePlaying)
    (hmin : MinInt ≤ g.Tick) (hmax : g.Tick ≤ MaxInt) :
    (g.Tick < MaxInt → (Update g choice).Tick = g.Tick + 1) ∧
    (¬ InvaderSteps ∣ g.Tick + 1 →
      (∀ r c, ((Update g choice).Invaders r c).Pos = (g.Invaders r c).Pos) ∧
      (Update g choice).InvaderDir = g.InvaderDir ∧
      (g.InvaderBullet.Active = false → (Update g choice).InvaderBullet.Active = false)) ∧
    (InvaderSteps ∣ g.Tick + 1 →
      (∀ r c, ((Update g choice).Invaders r c).Pos = ((moveInvaders g).Invaders r c).Pos) ∧
      (Update g choice).InvaderDir = (moveInvaders g).InvaderDir) ∧
    InvaderSteps = 15 := by
  rw [Update_playing g choice h]
  have hdvd := dvd_wrap_succ g.Tick hmin hmax
  refine ⟨fun hlt => ?_, ?_, ?_, rfl⟩
  · simp only [checkWinLoss_Tick, checkCollisions_frame, beforeCollisions_Tick]
    exact wrap_of_inRange _ (by omega) (by omega)
  · intro hn
    replace hn : ¬ InvaderSteps ∣ wrap (g.Tick + 1) := fun hw => hn (hdvd.1 hw)
    refine ⟨fun r c => ?_, ?_, ?_⟩
    · rw [checkWinLoss_Invaders, checkCollisions_Pos, beforeCollisions_off_formation_tick g choice hn]
      simp
    · rw [checkWinLoss_InvaderDir, beforeCollisions_off_formation_tick g choice hn]
      simp
    · intro hb
      rw [checkWinLoss_InvaderBullet, checkCollisions_InvaderBullet_eq,
        beforeCollisions_off_formation_tick g choice hn]
      have hmb : (moveInvaderBullet (movePlayerBullet { g with Tick := wrap (g.Tick + 1) })).InvaderBullet
          = g.InvaderBullet := by
        rw [moveInvaderBullet_of_inactive _ (by simpa using hb)]
        simp
      rw [hmb]
      split_ifs
      · rfl
      · exact hb
  · intro hd
    obtain ⟨h1, h2⟩ := beforeCollisions_on_formation_tick g choice (hdvd.2 hd)
    refine ⟨fun r c => ?_, ?_⟩
    · rw [checkWinLoss_Invaders, checkCollisions_Pos, h1]
    · rw [checkWinLoss_InvaderDir]
      simp [h2]

set_option maxRecDepth 100000 in
theorem Update_cadence_witness :
    (Update NewGame 0).Tick = NewGame.Tick + 1 ∧
    ((∀ r c, ((Update NewGame 0).Invaders r c).Pos = (NewGame.Invaders r c).Pos) ∧
      (Update NewGame 0).InvaderDir = NewGame.InvaderDir ∧
      (NewGame.InvaderBullet.Active = false → (Update NewGame 0).InvaderBullet.Active = false)) ∧
    ((∀ r c, ((Update tick14Game 0).Invaders r c).Pos = ((moveInvaders tick14Game).Invaders r c).Pos) ∧
      (Update tick14Game 0).InvaderDir = (moveInvaders tick14Game).InvaderDir) :=
  ⟨(Update_cadence NewGame 0 (by decide) (by decide) (by decide)).1 (by decide),
   (Update_cadence NewGame 0 (by decide) (by decide) (by decide)).2.1 (by decide),
   (Update_cadence tick14Game 0 (by decide) (by decide) (by decide)).2.2.1 (by decide)⟩

theorem mem_activePositions (g : Game) (p : Point) :
    p ∈ activePositions g ↔ ∃ r c, (g.Invaders r c).Active = true ∧ (g.Invaders r c).Pos = p := by
  have key := forCells_visited
    (fun r c (active : List Point) =>
      if (g.Invaders r c).Active then active ++ [(g.Invaders r c).Pos] else active)
    (fun done active => ∀ p, p ∈ active ↔
      ∃ x ∈ done, (g.Invaders x.1 x.2).Active = true ∧ (g.Invaders x.1 x.2).Pos = p)
    [] (by simp)
    (by
      intro done r c active _ hacc q
      by_cases ha : (g.Invaders r c).Active = true
      · simp only [ha, if_true, List.mem_append, List.mem_singleton, hacc q, or_and_right,
          exists_or, exists_eq_left, true_and]
        constructor
        · rintro (h | h)
          · exact Or.inl h
          · exact Or.inr h.symm
        · rintro (h | h)
          · exact Or.inl h
          · exact Or.inr h.symm
      · simp only [ha, Bool.false_eq_true, if_false, List.mem_append, List.mem_singleton, hacc q,
          or_and_right, exists_or, exists_eq_left, false_and, or_false])
  unfold activePositions
  refine Iff.trans (key p) ?_
  constructor
  · rintro ⟨x, _, hx⟩; exact ⟨x.1, x.2, hx⟩
  · rintro ⟨r, c, hx⟩; exact ⟨(r, c), mem_allCells _, hx⟩

set_option maxRecDepth 100000 in
/-- C17 (as stated): the new enemy projectile is not always one row below an
active enemy.  With every enemy active at row `MaxInt` and no enemy projectile
in flight, the addition overflows: the projectile is spawned at row `MinInt`,
which is `y+1` for no enemy. -/
theorem maybeInvaderShoot_row_counterexample :
    topRowsGame.InvaderBullet.Active = false ∧
    (∀ r c, (topRowsGame.Invaders r c).Active = true ∧ (topRowsGame.Invaders r c).Pos.Y = MaxInt) ∧
    (maybeInvaderShoot topRowsGame 0).InvaderBullet.Pos.Y = MinInt ∧
    (∀ r c, (maybeInvaderShoot topRowsGame 0).InvaderBullet.Pos.Y
      ≠ (topRowsGame.Invaders r c).Pos.Y + 1) := by
  decide

/-- C17 (amended): enemy fire selection.  For every game state and every outcome
of the random choice, `maybeInvaderShoot` leaves the state unchanged if the
enemy projectile is already active or if no enemy is active; otherwise, provided
`y+1` does not overflow the 64-bit `int` for the row `y` of any active enemy
(`MinInt <= y < MaxInt`), it changes only the enemy projectile, which becomes
active with direction `+1` at `(x, y+1)` where `(x, y)` is the position of some
enemy that is active in that state. -/
theorem maybeInvaderShoot_selection (g : Game) (choice : Nat) :
    ((g.InvaderBullet.Active = true ∨ ∀ r c, (g.Invaders r c).Active = false) →
      maybeInvaderShoot g choice = g) ∧
    (g.InvaderBullet.Active = false → (∃ r c, (g.Invaders r c).Active = true) →
      (∀ r c, (g.Invaders r c).Active = true →
        MinInt ≤ (g.Invaders r c).Pos.Y ∧ (g.Invaders r c).Pos.Y < MaxInt) →
      ∃ r c, (g.Invaders r c).Active = true ∧
        maybeInvaderShoot g choice =
          { g with InvaderBullet :=
              { Pos := ⟨(g.Invaders r c).Pos.X, (g.Invaders r c).Pos.Y + 1⟩
                Active := true
                Dir := 1 } }) := by
  constructor
  · rintro (hb | hnone)
    · simp [maybeInvaderShoot, hb]
    · have hl : (activePositions g).length = 0 := by
        rw [List.length_eq_zero, List.eq_nil_iff_forall_not_mem]
        intro p hp
        obtain ⟨r, c, ha, _⟩ := (mem_activePositions g p).1 hp
        rw [hnone r c] at ha
        exact absurd ha (by decide)
      unfold maybeInvaderShoot
      split_ifs
      · rfl
      · simp only [dif_pos hl]
  · intro hb ⟨r, c, ha⟩ hrows
    have hl : ¬ (activePositions g).length = 0 := by
      rw [List.length_eq_zero]
      intro hnil
      have : (g.Invaders r c).Pos ∈ activePositions g := (mem_activePositions g _).2 ⟨r, c, ha, rfl⟩
      rw [hnil] at this
      exact absurd this (List.not_mem_nil _)
    have hmem : (activePositions g).get
        ⟨choice % (activePositions g).length, Nat.mod_lt _ (Nat.pos_of_ne_zero hl)⟩
          ∈ activePositions g := List.get_mem _ _ _
    obtain ⟨r', c', ha', hp'⟩ := (mem_activePositions g _).1 hmem
    refine ⟨r', c', ha', ?_⟩
    have hw := wrap_of_inRange ((g.Invaders r' c').Pos.Y + 1)
      (by have := (hrows r' c' ha').1; omega) (by have := (hrows r' c' ha').2; omega)
    unfold maybeInvaderShoot
    rw [if_neg (by simp [hb])]
    simp only [dif_neg hl]
    rw [← hw, hp']

set_option maxRecDepth 100000 in
theorem maybeInvaderShoot_selection_witness :
    maybeInvaderShoot bulletOnPlayerGame 5 = bulletOnPlayerGame ∧
    maybeInvaderShoot clearedGame 5 = clearedGame ∧
    (∃ r c, (NewGame.Invaders r c).Active = true ∧
      maybeInvaderShoot NewGame 20 =
        { NewGame with InvaderBullet :=
            { Pos := ⟨(NewGame.Invaders r c).Pos.X, (NewGame.Invaders r c).Pos.Y + 1⟩
              Active := true
              Dir := 1 } }) :=
  ⟨(maybeInvaderShoot_selection bulletOnPlayerGame 5).1 (Or.inl (by decide)),
   (maybeInvaderShoot_selection clearedGame 5).1 (Or.inr (by decide)),
   (maybeInvaderShoot_selection NewGame 20).2 (by decide) ⟨0, 0, by decide⟩ (by decide)⟩

/-! ## The specification: lives and phase in the reachable states -/

theorem checkWinLoss_cases (g : Game) :
    (g.Lives ≤ 0 ∧ (checkWinLoss g).State = StateLost) ∨
    (0 < g.Lives ∧ (∃ r c, (g.Invaders r c).Active = true ∧ (g.Invaders r c).Pos.Y ≥ g.Player.Y) ∧
      (checkWinLoss g).State = StateLost) ∨
    (0 < g.Lives ∧ (∀ r c, (g.Invaders r c).Active = false) ∧ (checkWinLoss g).State = StateWon) ∨
    (0 < g.Lives ∧ (∀ r c, (g.Invaders r c).Active = true → (g.Invaders r c).Pos.Y < g.Player.Y) ∧
      (∃ r c, (g.Invaders r c).Active = true) ∧ (checkWinLoss g).State = g.State) := by
  unfold checkWinLoss
  split_ifs with h1 h2 h3
  · left; exact ⟨h1, rfl⟩
  · right; left
    obtain ⟨r, c, h⟩ := (anyCell_eq_true _).1 h2
    simp only [Bool.and_eq_true, decide_eq_true_eq] at h
    exact ⟨by omega, ⟨r, c, h⟩, rfl⟩
  · right; right; right
    have hno := (anyCell_eq_false _).1 (by simpa using h2)
    refine ⟨by omega, fun r c ha => ?_, (anyCell_eq_true _).1 h3, rfl⟩
    have := hno r c
    simp only [ha, Bool.true_and, decide_eq_false_iff_not] at this
    omega
  · right; right; left
    exact ⟨by omega, (anyCell_eq_false _).1 (by simpa using h3), rfl⟩

theorem MoveLeft_Player_Y (g : Game) : (MoveLeft g).Player.Y = g.Player.Y := by
  unfold MoveLeft; split_ifs <;> rfl

theorem MoveRight_Player_Y (g : Game) : (MoveRight g).Player.Y = g.Player.Y := by
  unfold MoveRight; split_ifs <;> rfl

theorem PhaseOk_of_same (g g' : Game) (hL : g'.Lives = g.Lives) (hS : g'.State = g.State)
    (hI : g'.Invaders = g.Invaders) (hY : g'.Player.Y = g.Player.Y) (h : PhaseOk g) :
    PhaseOk g' := by
  refine ⟨by rw [hL]; exact h.livesLe, by rw [hL]; exact h.livesGe, ?_, ?_, ?_⟩
  · rw [hS, hL, hI, hY]; exact h.playing
  · rw [hS, hL, hI]; exact h.won
  · rw [hS, hL, hI, hY]; exact h.lost

set_option maxRecDepth 100000 in
theorem PhaseOk_NewGame : PhaseOk NewGame where
  livesLe := by decide
  livesGe := by decide
  playing := fun _ => by decide
  won := fun h => absurd h (by decide)
  lost := fun h => absurd h (by decide)

/-! ## The invariant of the reachable states -/

theorem moveInRange_of_bounds (g : Game) (hdir : g.InvaderDir = 1 ∨ g.InvaderDir = -1)
    (hcols : ∀ r c, (g.Invaders r c).Active = true →
      1 ≤ (g.Invaders r c).Pos.X ∧ (g.Invaders r c).Pos.X ≤ Width - 2)
    (hrows : ∀ r c, (g.Invaders r c).Active = true →
      0 ≤ (g.Invaders r c).Pos.Y ∧ (g.Invaders r c).Pos.Y ≤ Height - 2) :
    MoveInRange g := by
  have hW : Width = 40 := rfl
  have hH : Height = 20 := rfl
  refine ⟨?_, fun r c ha => ?_⟩
  · simp only [MinInt, MaxInt]
    rcases hdir with h | h <;> omega
  · have h1 := hcols r c ha
    have h2 := hrows r c ha
    simp only [MinInt, MaxInt]
    rcases hdir with h | h <;> omega

theorem moveInvaders_Formation (g : Game) (hin : MoveInRange g) (hf : Formation g) :
    Formation (moveInvaders g) := by
  obtain ⟨dx, dy, hf⟩ := hf
  cases hd : needDrop g
  · refine ⟨dx + g.InvaderDir, dy, fun r c ha => ?_⟩
    rw [moveInvaders_Active] at ha
    rw [(moveInvaders_shift_exact g hin hd).2 r c ha, hf r c ha]
    simp only [Point.mk.injEq, and_true]
    ring
  · refine ⟨dx, dy + 1, fun r c ha => ?_⟩
    rw [moveInvaders_Active] at ha
    rw [(moveInvaders_drop_exact g hin hd).2 r c ha, hf r c ha]
    simp only [Point.mk.injEq, true_and]
    ring

theorem moveInvaders_bounds (g : Game) (hdir : g.InvaderDir = 1 ∨ g.InvaderDir = -1)
    (hcols : ∀ r c, (g.Invaders r c).Active = true →
      1 ≤ (g.Invaders r c).Pos.X ∧ (g.Invaders r c).Pos.X ≤ Width - 2)
    (hrows : ∀ r c, (g.Invaders r c).Active = true →
      0 ≤ (g.Invaders r c).Pos.Y ∧ (g.Invaders r c).Pos.Y < Height - 2) :
    ((moveInvaders g).InvaderDir = 1 ∨ (moveInvaders g).InvaderDir = -1) ∧
    ∀ r c, ((moveInvaders g).Invaders r c).Active = true →
      (1 ≤ ((moveInvaders g).Invaders r c).Pos.X ∧
        ((moveInvaders g).Invaders r c).Pos.X ≤ Width - 2) ∧
      (0 ≤ ((moveInvaders g).Invaders r c).Pos.Y ∧
        ((moveInvaders g).Invaders r c).Pos.Y ≤ Height - 2) := by
  have hW : Width = 40 := rfl
  have hin : MoveInRange g :=
    moveInRange_of_bounds g hdir hcols (fun r c ha => ⟨(hrows r c ha).1, by have := (hrows r c ha).2; omega⟩)
  cases hd : needDrop g
  · obtain ⟨h1, h2⟩ := moveInvaders_shift_exact g hin hd
    refine ⟨by rw [h1]; exact hdir, fun r c ha => ?_⟩
    rw [moveInvaders_Active] at ha
    have hno : ¬ ((g.Invaders r c).Pos.X + g.InvaderDir ≤ 0
        ∨ (g.Invaders r c).Pos.X + g.InvaderDir ≥ Width - 1) := by
      intro hx
      have := (needDrop_iff_exact g hin).2 ⟨r, c, ha, hx⟩
      rw [hd] at this
      exact absurd this (by decide)
    have hr := hrows r c ha
    rw [h2 r c ha]
    simp only
    refine ⟨⟨?_, ?_⟩, hr.1, ?_⟩ <;> omega
  · obtain ⟨h1, h2⟩ := moveInvaders_drop_exact g hin hd
    refine ⟨?_, fun r c ha => ?_⟩
    · rw [h1]
      rcases hdir with h | h <;> rw [h] <;> simp
    · rw [moveInvaders_Active] at ha
      have hc := hcols r c ha
      have hr := hrows r c ha
      rw [h2 r c ha]
      simp only
      refine ⟨hc, ?_, ?_⟩ <;> omega

theorem beforeCollisions_grid_cases (g : Game) (choice : Nat) :
    ((beforeCollisions g choice).Invaders = g.Invaders ∧
      (beforeCollisions g choice).InvaderDir = g.InvaderDir) ∨
    ∃ g' : Game, g'.Invaders = g.Invaders ∧ g'.InvaderDir = g.InvaderDir ∧
      (beforeCollisions g choice).Invaders = (moveInvaders g').Invaders ∧
      (beforeCollisions g choice).InvaderDir = (moveInvaders g').InvaderDir := by
  unfold beforeCollisions
  dsimp only
  split_ifs
  · right
    exact ⟨moveInvaderBullet (movePlayerBullet { g with Tick := wrap (g.Tick + 1) }), by simp, by simp,
      by simp, by simp⟩
  · left; simp

theorem beforeCollisions_sound (g : Game) (choice : Nat) (hs : Sound g)
    (hp : g.State = StatePlaying) :
    Formation (beforeCollisions g choice) ∧
    ((beforeCollisions g choice).InvaderDir = 1 ∨ (beforeCollisions g choice).InvaderDir = -1) ∧
    ∀ r c, ((beforeCollisions g choice).Invaders r c).Active = true →
      (1 ≤ ((beforeCollisions g choice).Invaders r c).Pos.X ∧
        ((beforeCollisions g choice).Invaders r c).Pos.X ≤ Width - 2) ∧
      (0 ≤ ((beforeCollisions g choice).Invaders r c).Pos.Y ∧
        ((beforeCollisions g choice).Invaders r c).Pos.Y ≤ Height - 2) := by
  rcases beforeCollisions_grid_cases g choice with ⟨h1, h2⟩ | ⟨g', h1, h2, h3, h4⟩
  · refine ⟨Formation_congr g _ h1 hs.reach.formation, by rw [h2]; exact hs.dir, ?_⟩
    rw [h1]
    exact fun r c ha => ⟨hs.cols r c ha, hs.rows r c ha⟩
  · have hdir : g'.InvaderDir = 1 ∨ g'.InvaderDir = -1 := by rw [h2]; exact hs.dir
    have hcols : ∀ r c, (g'.Invaders r c).Active = true →
        1 ≤ (g'.Invaders r c).Pos.X ∧ (g'.Invaders r c).Pos.X ≤ Width - 2 := by
      rw [h1]; exact hs.cols
    have hrows : ∀ r c, (g'.Invaders r c).Active = true →
        0 ≤ (g'.Invaders r c).Pos.Y ∧ (g'.Invaders r c).Pos.Y < Height - 2 := by
      rw [h1]
      intro r c ha
      have hy := (hs.phase.playing hp).2.2 r c ha
      rw [hs.reach.playerY] at hy
      exact ⟨(hs.rows r c ha).1, hy⟩
    have hin : MoveInRange g' :=
      moveInRange_of_bounds g' hdir hcols
        (fun r c ha => ⟨(hrows r c ha).1, by have := (hrows r c ha).2; omega⟩)
    obtain ⟨hb1, hb2⟩ := moveInvaders_bounds g' hdir hcols hrows
    refine ⟨Formation_congr (moveInvaders g') _ h3
      (moveInvaders_Formation g' hin (Formation_congr g g' h1 hs.reach.formation)), ?_, ?_⟩
    · rw [h4]; exact hb1
    · rw [h3]; exact hb2

theorem score_bounds (g : Game) (hr : Reach g) : 0 ≤ g.Score ∧ g.Score ≤ 240 := by
  have hs := hr.score
  have hle := activeCells_le g
  rw [ActiveInvaderCount_eq] at hs
  constructor <;> omega

theorem checkCollisions_Score_exact (g : Game) (hle : hitCount g ≤ 1) (h1 : MinInt ≤ g.Score)
    (h2 : g.Score + 10 ≤ MaxInt) :
    (checkCollisions g).Score =
      if g.PlayerBullet.Active = true then g.Score + 10 * (hitCount g : Int) else g.Score := by
  rw [checkCollisions_Score_eq]
  split_ifs
  · have h01 : hitCount g = 0 ∨ hitCount g = 1 := by omega
    rcases h01 with h | h
    · rw [h, addHits_zero]; simp
    · rw [h, addHits_one, wrap_of_inRange _ (by omega) h2]; simp
  · rfl

theorem checkCollisions_account (g : Game) (hle : hitCount g ≤ 1) (h1 : MinInt ≤ g.Score)
    (h2 : g.Score + 10 ≤ MaxInt) :
    (checkCollisions g).Score + 10 * ActiveInvaderCount (checkCollisions g)
      = g.Score + 10 * ActiveInvaderCount g := by
  rw [ActiveInvaderCount_eq, ActiveInvaderCount_eq, checkCollisions_activeCells g,
    checkCollisions_Score_exact g hle h1 h2]
  split_ifs <;> push_cast <;> ring

theorem Update_Lives (g : Game) (choice : Nat) (h1 : MinInt < g.Lives) (h2 : g.Lives ≤ MaxInt) :
    (Update g choice).Lives = g.Lives ∨ (Update g choice).Lives = g.Lives - 1 := by
  by_cases hp : g.State = StatePlaying
  · rw [Update_playing g choice hp, checkWinLoss_Lives, checkCollisions_Lives_eq]
    split_ifs
    · right
      simp only [beforeCollisions_Lives]
      exact wrap_of_inRange _ (by omega) (by omega)
    · left; simp
  · left; rw [Update_of_not_playing g choice hp]

theorem step_Lives (g : Game) (op : Op) (h1 : MinInt < g.Lives) (h2 : g.Lives ≤ MaxInt) :
    (step g op).Lives = g.Lives ∨ (step g op).Lives = g.Lives - 1 := by
  cases op with
  | moveLeft => left; simp [step]
  | moveRight => left; simp [step]
  | shoot => left; simp [step]
  | update choice => exact Update_Lives g choice h1 h2

theorem Update_Score (g : Game) (choice : Nat) (hs : Sound g) :
    (Update g choice).Score = g.Score ∨ (Update g choice).Score = g.Score + 10 := by
  by_cases hp : g.State = StatePlaying
  · obtain ⟨hF, _, _⟩ := beforeCollisions_sound g choice hs hp
    have hle := hitCount_le_one _ (DistinctActive_of_Formation _ hF)
    have hb := score_bounds g hs.reach
    rw [Update_playing g choice hp, checkWinLoss_Score,
      checkCollisions_Score_exact _ hle (by simp [MinInt]; omega) (by simp [MaxInt]; omega)]
    split_ifs
    · have h01 : hitCount (beforeCollisions g choice) = 0 ∨ hitCount (beforeCollisions g choice) = 1 := by
        omega
      rcases h01 with h | h <;> rw [h] <;> simp
    · left; simp
  · left; rw [Update_of_not_playing g choice hp]

theorem step_Score_le (g : Game) (op : Op) (hs : Sound g) : g.Score ≤ (step g op).Score := by
  cases op with
  | moveLeft => simp [step]
  | moveRight => simp [step]
  | shoot => simp [step]
  | update choice =>
    simp only [step]
    rcases Update_Score g choice hs with h | h <;> omega

theorem Reach_Update (g : Game) (choice : Nat) (hs : Sound g) : Reach (Update g choice) := by
  have hr := hs.reach
  by_cases hp : g.State = StatePlaying
  · obtain ⟨hF, _, _⟩ := beforeCollisions_sound g choice hs hp
    have hle := hitCount_le_one _ (DistinctActive_of_Formation _ hF)
    have hb := score_bounds g hr
    rw [Update_playing g choice hp]
    have hacc := checkCollisions_account (beforeCollisions g choice) hle
      (by simp [MinInt]; omega) (by simp [MaxInt]; omega)
    have hcnt : ActiveInvaderCount (beforeCollisions g choice) = ActiveInvaderCount g :=
      ActiveInvaderCount_congr _ _ (beforeCollisions_Active g choice)
    refine ⟨?_, ?_, ?_, ?_, ?_⟩
    · exact Formation_congr (checkCollisions (beforeCollisions g choice)) _ (by simp)
        (checkCollisions_Formation _ hF)
    · simpa using hr.playerX
    · simpa using hr.playerY
    · rw [ActiveInvaderCount_congr (checkCollisions (beforeCollisions g choice)) _ (by simp)]
      simp only [checkWinLoss_Score]
      rw [hacc, hcnt]
      simpa using hr.score
    · intro hw
      rcases checkWinLoss_won _ hw with h | h
      · simp [hp] at h
      · simpa using h
  · rw [Update_of_not_playing g choice hp]
    exact hr

theorem PhaseOk_Update (g : Game) (choice : Nat) (h : PhaseOk g) : PhaseOk (Update g choice) := by
  by_cases hp : g.State = StatePlaying
  · have h1 := (h.playing hp).1
    have hle := h.livesLe
    have hl := Update_Lives g choice (by simp [MinInt]; omega) (by simp [MaxInt]; omega)
    have hcases := checkWinLoss_cases (checkCollisions (beforeCollisions g choice))
    rw [Update_playing g choice hp] at hl ⊢
    have hS : (checkCollisions (beforeCollisions g choice)).State = StatePlaying := by simp [hp]
    refine ⟨by omega, by omega, ?_, ?_, ?_⟩
    · intro hs
      simp only [checkWinLoss_Lives, checkWinLoss_Invaders, checkWinLoss_Player]
      rcases hcases with ⟨_, h2⟩ | ⟨_, _, h2⟩ | ⟨_, _, h2⟩ | ⟨h2, h3, h4, _⟩
      · rw [h2] at hs; exact absurd hs (by decide)
      · rw [h2] at hs; exact absurd hs (by decide)
      · rw [h2] at hs; exact absurd hs (by decide)
      · exact ⟨by omega, h4, h3⟩
    · intro hs
      simp only [checkWinLoss_Lives, checkWinLoss_Invaders]
      rcases hcases with ⟨_, h2⟩ | ⟨_, _, h2⟩ | ⟨h2, h3, _⟩ | ⟨_, _, _, h2⟩
      · rw [h2] at hs; exact absurd hs (by decide)
      · rw [h2] at hs; exact absurd hs (by decide)
      · exact ⟨by omega, h3⟩
      · rw [h2, hS] at hs; exact absurd hs (by decide)
    · intro hs
      simp only [checkWinLoss_Lives, checkWinLoss_Invaders, checkWinLoss_Player]
      rcases hcases with ⟨h2, _⟩ | ⟨_, h2, _⟩ | ⟨_, _, h2⟩ | ⟨_, _, _, h2⟩
      · exact Or.inl h2
      · exact Or.inr h2
      · rw [h2] at hs; exact absurd hs (by decide)
      · rw [h2, hS] at hs; exact absurd hs (by decide)
  · rw [Update_of_not_playing g choice hp]
    exact h

theorem Sound_Update (g : Game) (choice : Nat) (hs : Sound g) : Sound (Update g choice) := by
  refine ⟨Reach_Update g choice hs, PhaseOk_Update g choice hs.phase, ?_, ?_, ?_⟩
  · by_cases hp : g.State = StatePlaying
    · obtain ⟨_, hD, _⟩ := beforeCollisions_sound g choice hs hp
      rw [Update_playing g choice hp]
      simpa using hD
    · rw [Update_of_not_playing g choice hp]; exact hs.dir
  · by_cases hp : g.State = StatePlaying
    · obtain ⟨_, _, hB⟩ := beforeCollisions_sound g choice hs hp
      rw [Update_playing g choice hp]
      intro r c ha
      rw [checkWinLoss_Invaders] at ha ⊢
      rw [checkCollisions_Pos]
      exact (hB r c (checkCollisions_Active_imp _ r c ha)).1
    · rw [Update_of_not_playing g choice hp]; exact hs.cols
  · by_cases hp : g.State = StatePlaying
    · obtain ⟨_, _, hB⟩ := beforeCollisions_sound g choice hs hp
      rw [Update_playing g choice hp]
      intro r c ha
      rw [checkWinLoss_Invaders] at ha ⊢
      rw [checkCollisions_Pos]
      exact (hB r c (checkCollisions_Active_imp _ r c ha)).2
    · rw [Update_of_not_playing g choice hp]; exact hs.rows

theorem Reach_MoveLeft (g : Game) (hr : Reach g) : Reach (MoveLeft g) := by
  refine ⟨Formation_congr g _ (by simp) hr.formation, ?_, ?_, ?_, ?_⟩
  · have := hr.playerX
    simp only [MoveLeft]
    split_ifs <;> constructor <;> simp only [Width] at * <;> omega
  · have := hr.playerY
    simp only [MoveLeft]
    split_ifs <;> simpa using this
  · rw [ActiveInvaderCount_congr g _ (by simp)]
    simpa using hr.score
  · simpa using hr.won

theorem Reach_MoveRight (g : Game) (hr : Reach g) : Reach (MoveRight g) := by
  refine ⟨Formation_congr g _ (by simp) hr.formation, ?_, ?_, ?_, ?_⟩
  · have := hr.playerX
    simp only [MoveRight]
    split_ifs <;> constructor <;> simp only [Width] at * <;> omega
  · have := hr.playerY
    simp only [MoveRight]
    split_ifs <;> simpa using this
  · rw [ActiveInvaderCount_congr g _ (by simp)]
    simpa using hr.score
  · simpa using hr.won

theorem Reach_Shoot (g : Game) (hr : Reach g) : Reach (Shoot g) := by
  refine ⟨Formation_congr g _ (by simp) hr.formation, by simpa using hr.playerX,
    by simpa using hr.playerY, ?_, by simpa using hr.won⟩
  rw [ActiveInvaderCount_congr g _ (by simp)]
  simpa using hr.score

theorem Sound_step (g : Game) (op : Op) (hs : Sound g) : Sound (step g op) := by
  cases op with
  | moveLeft =>
    exact ⟨Reach_MoveLeft g hs.reach,
      PhaseOk_of_same g _ (by simp [step]) (by simp [step]) (by simp [step]) (MoveLeft_Player_Y g)
        hs.phase,
      by simpa [step] using hs.dir, by simpa [step] using hs.cols, by simpa [step] using hs.rows⟩
  | moveRight =>
    exact ⟨Reach_MoveRight g hs.reach,
      PhaseOk_of_same g _ (by simp [step]) (by simp [step]) (by simp [step]) (MoveRight_Player_Y g)
        hs.phase,
      by simpa [step] using hs.dir, by simpa [step] using hs.cols, by simpa [step] using hs.rows⟩
  | shoot =>
    exact ⟨Reach_Shoot g hs.reach,
      PhaseOk_of_same g _ (by simp [step]) (by simp [step]) (by simp [step]) (by simp [step])
        hs.phase,
      by simpa [step] using hs.dir, by simpa [step] using hs.cols, by simpa [step] using hs.rows⟩
  | update choice => exact Sound_Update g choice hs

theorem Sound_run (g : Game) (ops : List Op) (hs : Sound g) : Sound (run g ops) := by
  induction ops generalizing g with
  | nil => exact hs
  | cons op ops ih => exact ih (step g op) (Sound_step g op hs)

set_option maxRecDepth 100000 in
theorem Sound_NewGame : Sound NewGame where
  reach := Reach_NewGame
  phase := PhaseOk_NewGame
  dir := by decide
  cols := by decide
  rows := by decide

theorem Reach_run (ops : List Op) : Reach (run NewGame ops) :=
  (Sound_run NewGame ops Sound_NewGame).reach

theorem PhaseOk_run (ops : List Op) : PhaseOk (run NewGame ops) :=
  (Sound_run NewGame ops Sound_NewGame).phase

set_option maxRecDepth 10000000 in
theorem losingOps_end :
    (run NewGame losingOps).Lives = 0 ∧ (run NewGame losingOps).State = StateLost := by
  decide!

/-! ## The specification: reachable states -/

/-- C7: at most one hit per tick.  In every state reachable from `NewGame` by a
finite sequence of `MoveLeft`, `MoveRight`, `Shoot` and `Update` (with any random
choices), two distinct active enemies have different positions.  Consequently
one more `Update` deactivates at most one enemy (two cells that were active and
are inactive afterwards are the same cell) and either leaves score and active
count alone or adds exactly 10 to the score and removes one active enemy. -/
theorem at_most_one_hit (ops : List Op) (choice : Nat) :
    (∀ r c r' c', ((run NewGame ops).Invaders r c).Active = true →
      ((run NewGame ops).Invaders r' c').Active = true → (r, c) ≠ (r', c') →
      ((run NewGame ops).Invaders r c).Pos ≠ ((run NewGame ops).Invaders r' c').Pos) ∧
    (∀ r c r' c', ((run NewGame ops).Invaders r c).Active = true →
      ((Update (run NewGame ops) choice).Invaders r c).Active = false →
      ((run NewGame ops).Invaders r' c').Active = true →
      ((Update (run NewGame ops) choice).Invaders r' c').Active = false → (r, c) = (r', c')) ∧
    (((Update (run NewGame ops) choice).Score = (run NewGame ops).Score ∧
        ActiveInvaderCount (Update (run NewGame ops) choice) = ActiveInvaderCount (run NewGame ops)) ∨
      ((Update (run NewGame ops) choice).Score = (run NewGame ops).Score + 10 ∧
        ActiveInvaderCount (Update (run NewGame ops) choice)
          = ActiveInvaderCount (run NewGame ops) - 1)) := by
  have hsd : Sound (run NewGame ops) := Sound_run NewGame ops Sound_NewGame
  have hr : Reach (run NewGame ops) := hsd.reach
  have hr' : Reach (Update (run NewGame ops) choice) := Reach_Update _ choice hsd
  generalize run NewGame ops = g at hsd hr hr'
  refine ⟨?_, ?_, ?_⟩
  · intro r c r' c' ha ha' hne hp
    obtain ⟨h1, h2⟩ := DistinctActive_of_Formation g hr.formation r c r' c' ha ha' hp
    exact hne (by rw [h1, h2])
  · intro r c r' c' ha hd ha' hd'
    by_cases hp : g.State = StatePlaying
    · rw [Update_playing g choice hp, checkWinLoss_Invaders, checkCollisions_Active,
        beforeCollisions_Active] at hd hd'
      have hdist := DistinctActive_of_Formation _ (beforeCollisions_sound g choice hsd hp).1
      simp only [ha, ha', Bool.true_and, Bool.not_eq_false', Bool.and_eq_true] at hd hd'
      obtain ⟨hx1, hx2⟩ := (isHit_iff _ _).1 hd.2
      obtain ⟨hy1, hy2⟩ := (isHit_iff _ _).1 hd'.2
      obtain ⟨h1, h2⟩ := hdist r c r' c' hx1 hy1 (hx2.trans hy2.symm)
      rw [h1, h2]
    · rw [Update_of_not_playing g choice hp, ha] at hd
      exact absurd hd (by decide)
  · have hs := hr.score
    have hs' := hr'.score
    have hscore : (Update g choice).Score = g.Score ∨ (Update g choice).Score = g.Score + 10 :=
      Update_Score g choice hsd
    rcases hscore with h | h
    · left; exact ⟨h, by omega⟩
    · right; exact ⟨h, by omega⟩

set_option maxRecDepth 100000 in
theorem at_most_one_hit_witness :
    (((run NewGame aimedOps).Invaders 0 0).Pos ≠ ((run NewGame aimedOps).Invaders 2 4).Pos) ∧
    (((2 : Fin InvaderRows), (4 : Fin InvaderCols)) = (2, 4)) ∧
    (((Update (run NewGame aimedOps) 10).Score = (run NewGame aimedOps).Score ∧
        ActiveInvaderCount (Update (run NewGame aimedOps) 10) = ActiveInvaderCount (run NewGame aimedOps)) ∨
      ((Update (run NewGame aimedOps) 10).Score = (run NewGame aimedOps).Score + 10 ∧
        ActiveInvaderCount (Update (run NewGame aimedOps) 10)
          = ActiveInvaderCount (run NewGame aimedOps) - 1)) :=
  ⟨(at_most_one_hit aimedOps 10).1 0 0 2 4 (by decide) (by decide) (by decide),
   (at_most_one_hit aimedOps 10).2.1 2 4 2 4 (by decide) (by decide) (by decide) (by decide),
   (at_most_one_hit aimedOps 10).2.2⟩

/-- C8: the score accounts for exactly 10 points per destroyed enemy.  In every
state reachable from `NewGame` by a finite sequence of `MoveLeft`, `MoveRight`,
`Shoot` and `Update`, `Score = 10 * (R*C - ActiveInvaderCount)` with `R*C = 24`;
hence the score is not negative, no operation decreases it, and it is 240
whenever the phase is Won. -/
theorem score_accounting (ops : List Op) :
    (run NewGame ops).Score
      = 10 * (((InvaderRows * InvaderCols : Nat) : Int) - ActiveInvaderCount (run NewGame ops)) ∧
    InvaderRows * InvaderCols = 24 ∧
    0 ≤ (run NewGame ops).Score ∧
    (∀ op : Op, (run NewGame ops).Score ≤ (step (run NewGame ops) op).Score) ∧
    ((run NewGame ops).State = StateWon → (run NewGame ops).Score = 240) := by
  have hsd : Sound (run NewGame ops) := Sound_run NewGame ops Sound_NewGame
  have hr : Reach (run NewGame ops) := hsd.reach
  generalize run NewGame ops = g at hsd hr
  have hs := hr.score
  have hle := activeCells_le g
  rw [ActiveInvaderCount_eq] at hs ⊢
  refine ⟨?_, rfl, ?_, fun op => step_Score_le g op hsd, ?_⟩
  · push_cast; omega
  · omega
  · intro hw
    rw [activeCells_eq_zero g (hr.won hw)] at hs
    simpa using hs

theorem score_accounting_witness :
    (run NewGame winningOps).State = StateWon ∧ (run NewGame winningOps).Score = 240 :=
  ⟨winningOps_State, (score_accounting winningOps).2.2.2.2 winningOps_State⟩

/-- C9: player position invariant.  In every state reachable from `NewGame` by a
finite sequence of `MoveLeft`, `MoveRight`, `Shoot` and `Update`, the column of
the player satisfies `1 <= x <= W-2` with `W = 40`, and the row of the player is
`H-2` with `H = 20`. -/
theorem player_position (ops : List Op) :
    1 ≤ (run NewGame ops).Player.X ∧ (run NewGame ops).Player.X ≤ Width - 2 ∧
    (run NewGame ops).Player.Y = Height - 2 ∧ Width = 40 ∧ Height = 20 :=
  have hr : Reach (run NewGame ops) := Reach_run ops
  ⟨hr.playerX.1, hr.playerX.2, hr.playerY, rfl, rfl⟩

/-- C14: lives stay in range.  In every state reachable from `NewGame` by a
finite sequence of `MoveLeft`, `MoveRight`, `Shoot` and `Update`,
`0 <= Lives <= 3`; one more `Update` (with any random choice) decreases `Lives`
by at most 1, no operation increases it, and whenever `Lives = 0` the phase is
Lost. -/
theorem lives_in_range (ops : List Op) :
    0 ≤ (run NewGame ops).Lives ∧ (run NewGame ops).Lives ≤ 3 ∧
    (∀ choice : Nat, (run NewGame ops).Lives - 1 ≤ (Update (run NewGame ops) choice).Lives) ∧
    (∀ op : Op, (step (run NewGame ops) op).Lives ≤ (run NewGame ops).Lives) ∧
    ((run NewGame ops).Lives = 0 → (run NewGame ops).State = StateLost) := by
  have hr : PhaseOk (run NewGame ops) := PhaseOk_run ops
  generalize run NewGame ops = g at hr
  have h0' := hr.livesGe
  have h3' := hr.livesLe
  refine ⟨hr.livesGe, hr.livesLe, fun choice => ?_, fun op => ?_, fun h0 => ?_⟩
  · rcases Update_Lives g choice (by simp only [MinInt]; omega) (by simp only [MaxInt]; omega)
      with h | h <;> omega
  · rcases step_Lives g op (by simp only [MinInt]; omega) (by simp only [MaxInt]; omega)
      with h | h <;> omega
  · cases hs : g.State
    · have := (hr.playing hs).1; omega
    · have := (hr.won hs).1; omega
    · rfl

theorem lives_in_range_witness :
    (run NewGame losingOps).Lives = 0 ∧ (run NewGame losingOps).State = StateLost :=
  ⟨losingOps_end.1, (lives_in_range losingOps).2.2.2.2 losingOps_end.1⟩

/-- C20: the phase always agrees with the win/loss rule.  In every state
reachable from `NewGame` by a finite sequence of `MoveLeft`, `MoveRight`, `Shoot`
and `Update`: (a) if the phase is Playing then `Lives >= 1`, at least one enemy
is active and the row of every active enemy is strictly less than the row of the
player; (b) if the phase is Won then `Lives >= 1` and no enemy is active; (c) if
the phase is Lost then `Lives <= 0` or the row of some active enemy is at or
beyond the row of the player. -/
theorem phase_agrees_with_rule (ops : List Op) :
    ((run NewGame ops).State = StatePlaying →
      1 ≤ (run NewGame ops).Lives ∧
      (∃ r c, ((run NewGame ops).Invaders r c).Active = true) ∧
      ∀ r c, ((run NewGame ops).Invaders r c).Active = true →
        ((run NewGame ops).Invaders r c).Pos.Y < (run NewGame ops).Player.Y) ∧
    ((run NewGame ops).State = StateWon →
      1 ≤ (run NewGame ops).Lives ∧ ∀ r c, ((run NewGame ops).Invaders r c).Active = false) ∧
    ((run NewGame ops).State = StateLost →
      (run NewGame ops).Lives ≤ 0 ∨
      ∃ r c, ((run NewGame ops).Invaders r c).Active = true ∧
        ((run NewGame ops).Invaders r c).Pos.Y ≥ (run NewGame ops).Player.Y) :=
  have hr : PhaseOk (run NewGame ops) := PhaseOk_run ops
  ⟨hr.playing, hr.won, hr.lost⟩

set_option maxRecDepth 100000 in
theorem phase_agrees_with_rule_witness :
    (1 ≤ (run NewGame aimedOps).Lives ∧
      (∃ r c, ((run NewGame aimedOps).Invaders r c).Active = true) ∧
      ∀ r c, ((run NewGame aimedOps).Invaders r c).Active = true →
        ((run NewGame aimedOps).Invaders r c).Pos.Y < (run NewGame aimedOps).Player.Y) ∧
    (1 ≤ (run NewGame winningOps).Lives ∧
      ∀ r c, ((run NewGame winningOps).Invaders r c).Active = false) ∧
    ((run NewGame losingOps).Lives ≤ 0 ∨
      ∃ r c, ((run NewGame losingOps).Invaders r c).Active = true ∧
        ((run NewGame losingOps).Invaders r c).Pos.Y ≥ (run NewGame losingOps).Player.Y) :=
  ⟨(phase_agrees_with_rule aimedOps).1 (by decide),
   (phase_agrees_with_rule winningOps).2.1 winningOps_State,
   (phase_agrees_with_rule losingOps).2.2 losingOps_end.2⟩

end SpaceInvaders
